import Mathlib

/-!
Shallow embedding of the `llir/l` IR core: the memory-instruction type
inference (src/unnamed/part_000, package `ir`), and the function assembler
and identifier-numbering pass (src/ir/function.go).

Go structs become Lean structures; in-place mutation of the lazily cached
result type becomes explicit state passing (each `TypeOf` accessor returns
the result together with the updated receiver); the Go `panic` on a
type-shape violation becomes `Except.error`.
-/

namespace LlirIR

/-- The external type-system capability (`types` package, out of the given
sources; the spec treats it as an opaque facade with pointer/struct/function
constructors, pointee projection and equality).  `ptr e` models
`*types.PointerType` with `ElemType e`; `int 1` models `types.I1`;
`struct fs` models `*types.StructType`; `func r ps v` models
`*types.FuncType`. -/
inductive LType where
  | void : LType
  | int : Nat → LType
  | ptr : LType → LType
  | struct : List LType → LType
  | func : LType → List LType → Bool → LType

/-- Models `fmt`'s `%T` on a type value: the Go dynamic type name, used in
the fatal type-error messages of `InstLoad.Type` and `InstAtomicRMW.Type`. -/
def LType.goTypeName : LType → String
  | .void => "*types.VoidType"
  | .int _ => "*types.IntType"
  | .ptr _ => "*types.PointerType"
  | .struct _ => "*types.StructType"
  | .func _ _ _ => "*types.FuncType"

/-- `t.Equal(types.Void)`, the only type equality the given sources test. -/
def LType.isVoid : LType → Bool
  | .void => true
  | _ => false

/-- Whether the Go type assertion `t.(*types.PointerType)` succeeds. -/
def LType.isPtr : LType → Bool
  | .ptr _ => true
  | _ => false

/-- An operand (the external `value.Value` capability): the core only ever
queries its type (`Type()`) and, for constant operands of the function
header, its rendering (`String()`), both treated by the spec as collaborator
interfaces. -/
structure Value where
  Typ : LType
  Str : String := ""

/-- `value.Value.Type()` of an operand. -/
def Value.TypeOf (v : Value) : LType := v.Typ

-- ~~~ [ alloca ] ~~~

/-- `InstAlloca` (src/unnamed/part_000). -/
structure InstAlloca where
  LocalName : String := ""
  ElemType : LType
  NElems : Option Value := none
  Typ : Option LType := none
  InAlloca : Bool := false
  SwiftError : Bool := false
  Alignment : Int := 0

/-- `NewAlloca`. -/
def NewAlloca (elemType : LType) : InstAlloca :=
  { ElemType := elemType }

/-- `InstAlloca.Type`: cache `types.NewPointer(inst.ElemType)` if not
present, then return the cache. -/
def InstAlloca.TypeOf (inst : InstAlloca) : LType × InstAlloca :=
  match inst.Typ with
  | some t => (t, inst)
  | none =>
    let t := LType.ptr inst.ElemType
    (t, { inst with Typ := some t })

-- ~~~ [ load ] ~~~

/-- Atomic memory ordering (`enum.AtomicOrdering`, out of the given sources;
an opaque enumerated tag per the spec, zero value `none'`). -/
inductive AtomicOrdering where
  | none'
  | acquire
  | release
  | acqRel
  | seqCst
  | monotonic
  | unordered

/-- `InstLoad` (src/unnamed/part_000). -/
structure InstLoad where
  LocalName : String := ""
  Src : Value
  Typ : Option LType := none
  Atomic : Bool := false
  Volatile : Bool := false
  SyncScope : String := ""
  Ordering : AtomicOrdering := .none'
  Alignment : Int := 0

/-- `NewLoad`. -/
def NewLoad (src : Value) : InstLoad :=
  { Src := src }

/-- `InstLoad.Type`: if the cache is empty, assert that the source type is a
pointer type (`panic`, modelled as `Except.error`, otherwise), cache its
`ElemType`; return the cache. -/
def InstLoad.TypeOf (inst : InstLoad) : Except String (LType × InstLoad) :=
  match inst.Typ with
  | some t => .ok (t, inst)
  | none =>
    match inst.Src.TypeOf with
    | .ptr elem => .ok (elem, { inst with Typ := some elem })
    | t =>
      .error ("invalid source type; expected *types.PointerType, got "
        ++ t.goTypeName)

-- ~~~ [ store ] ~~~

/-- `InstStore` (src/unnamed/part_000); produces no result. -/
structure InstStore where
  Src : Value
  Dst : Value
  Atomic : Bool := false
  Volatile : Bool := false
  SyncScope : String := ""
  Ordering : AtomicOrdering := .none'
  Alignment : Int := 0

/-- `NewStore`. -/
def NewStore (src dst : Value) : InstStore :=
  { Src := src, Dst := dst }

-- ~~~ [ fence ] ~~~

/-- `InstFence` (src/unnamed/part_000); produces no result. -/
structure InstFence where
  Ordering : AtomicOrdering
  SyncScope : String := ""

/-- `NewFence`. -/
def NewFence (ordering : AtomicOrdering) : InstFence :=
  { Ordering := ordering }

-- ~~~ [ cmpxchg ] ~~~

/-- `InstCmpXchg` (src/unnamed/part_000).  The Go cache field has Go type
`*types.StructType`; it only ever holds `types.NewStruct(oldType, types.I1)`
and is modelled as an optional `LType`. -/
structure InstCmpXchg where
  LocalName : String := ""
  Ptr : Value
  Cmp : Value
  New : Value
  Success : AtomicOrdering
  Failure : AtomicOrdering
  Typ : Option LType := none
  Weak : Bool := false
  Volatile : Bool := false
  SyncScope : String := ""

/-- `NewCmpXchg`. -/
def NewCmpXchg (ptr cmp new : Value) (success failure : AtomicOrdering) :
    InstCmpXchg :=
  { Ptr := ptr, Cmp := cmp, New := new, Success := success,
    Failure := failure }

/-- `InstCmpXchg.Type`: cache `types.NewStruct(inst.New.Type(), types.I1)`
if not present, then return the cache. -/
def InstCmpXchg.TypeOf (inst : InstCmpXchg) : LType × InstCmpXchg :=
  match inst.Typ with
  | some t => (t, inst)
  | none =>
    let oldType := inst.New.TypeOf
    let t := LType.struct [oldType, LType.int 1]
    (t, { inst with Typ := some t })

-- ~~~ [ atomicrmw ] ~~~

/-- Atomic operation kind (`enum.AtomicOp`, out of the given sources; an
opaque enumerated tag per the spec). -/
inductive AtomicOp where
  | add
  | sub
  | xchg
  | other

/-- `InstAtomicRMW` (src/unnamed/part_000). -/
structure InstAtomicRMW where
  LocalName : String := ""
  Op : AtomicOp
  Dst : Value
  X : Value
  Ordering : AtomicOrdering
  Typ : Option LType := none
  Volatile : Bool := false
  SyncScope : String := ""

/-- `NewAtomicRMW`. -/
def NewAtomicRMW (op : AtomicOp) (dst x : Value) (ordering : AtomicOrdering) :
    InstAtomicRMW :=
  { Op := op, Dst := dst, X := x, Ordering := ordering }

/-- `InstAtomicRMW.Type`: if the cache is empty, assert that the destination
type is a pointer type (`panic`, modelled as `Except.error`, otherwise),
cache its `ElemType`; return the cache. -/
def InstAtomicRMW.TypeOf (inst : InstAtomicRMW) :
    Except String (LType × InstAtomicRMW) :=
  match inst.Typ with
  | some t => .ok (t, inst)
  | none =>
    match inst.Dst.TypeOf with
    | .ptr elem => .ok (elem, { inst with Typ := some elem })
    | t =>
      .error ("invalid destination type; expected *types.PointerType, got "
        ++ t.goTypeName)

-- ~~~ [ getelementptr ] ~~~

/-- `InstGetElementPtr` (src/unnamed/part_000). -/
structure InstGetElementPtr where
  LocalName : String := ""
  ElemType : LType
  Src : Value
  Indices : List Value := []
  Typ : Option LType := none
  InBounds : Bool := false

/-- `NewGetElementPtr`. -/
def NewGetElementPtr (elemType : LType) (src : Value)
    (indices : List Value) : InstGetElementPtr :=
  { ElemType := elemType, Src := src, Indices := indices }

/-- `InstGetElementPtr.Type`: cache `types.NewPointer(inst.ElemType)` if not
present, then return the cache. -/
def InstGetElementPtr.TypeOf (inst : InstGetElementPtr) :
    LType × InstGetElementPtr :=
  match inst.Typ with
  | some t => (t, inst)
  | none =>
    let t := LType.ptr inst.ElemType
    (t, { inst with Typ := some t })

-- === [ Identifier escaping (internal/enc, collaborator) ] ===

/-- Modelled from the spec: `enc.Global` (package `internal/enc`, not among
the given sources): global-scope identifiers render with the reserved `@`
prefix; escaping of non-identifier-safe names is the collaborator's business
and is not modelled (§6). -/
def Global (name : String) : String := "@" ++ name

/-- Modelled from the spec: `enc.Local` (package `internal/enc`, not among
the given sources): local-scope identifiers render with the reserved `%`
prefix (§6). -/
def Local (name : String) : String := "%" ++ name

/-- Modelled from the spec: `enc.Quote` (package `internal/enc`, not among
the given sources): quoted-string rendering for free-form textual
attributes (§6). -/
def Quote (s : String) : String := "\"" ++ s ++ "\""

-- === [ Enums (ir/enum, collaborators; zero value = "not present") ] ===

/-- Modelled from the spec: `enum.Linkage` (not among the given sources);
the zero value `LinkageNone` means "not present" and a set value renders as
its keyword clause (§3, §4.5). -/
inductive Linkage where
  | LinkageNone
  | LinkageExternal
  | LinkageInternal
  | LinkageWeak
  | LinkagePrivate
  deriving BEq, DecidableEq

/-- `fmt`'s `%v` of a linkage value (its `String()` method, modelled). -/
def Linkage.render : Linkage → String
  | .LinkageNone => "none"
  | .LinkageExternal => "external"
  | .LinkageInternal => "internal"
  | .LinkageWeak => "weak"
  | .LinkagePrivate => "private"

/-- Modelled from the spec: `enum.Preemption`; zero value if not present. -/
inductive Preemption where
  | PreemptionNone
  | PreemptionDSOLocal
  | PreemptionDSOPreemptable
  deriving BEq, DecidableEq

/-- `%v` of a preemption specifier (modelled). -/
def Preemption.render : Preemption → String
  | .PreemptionNone => "none"
  | .PreemptionDSOLocal => "dso_local"
  | .PreemptionDSOPreemptable => "dso_preemptable"

/-- Modelled from the spec: `enum.Visibility`; zero value if not present. -/
inductive Visibility where
  | VisibilityNone
  | VisibilityDefault
  | VisibilityHidden
  | VisibilityProtected
  deriving BEq, DecidableEq

/-- `%v` of a visibility (modelled). -/
def Visibility.render : Visibility → String
  | .VisibilityNone => "none"
  | .VisibilityDefault => "default"
  | .VisibilityHidden => "hidden"
  | .VisibilityProtected => "protected"

/-- Modelled from the spec: `enum.DLLStorageClass`; zero value if not
present. -/
inductive DLLStorageClass where
  | DLLStorageClassNone
  | DLLStorageClassDLLExport
  | DLLStorageClassDLLImport
  deriving BEq, DecidableEq

/-- `%v` of a DLL storage class (modelled). -/
def DLLStorageClass.render : DLLStorageClass → String
  | .DLLStorageClassNone => "none"
  | .DLLStorageClassDLLExport => "dllexport"
  | .DLLStorageClassDLLImport => "dllimport"

/-- Modelled from the spec: `enum.CallingConv`; zero value if not present. -/
inductive CallingConv where
  | CallingConvNone
  | CallingConvFast
  | CallingConvCold
  deriving BEq, DecidableEq

/-- `%v` of a calling convention (modelled). -/
def CallingConv.render : CallingConv → String
  | .CallingConvNone => "none"
  | .CallingConvFast => "fastcc"
  | .CallingConvCold => "coldcc"

/-- Modelled from the spec: `enum.UnnamedAddr`; zero value if not present. -/
inductive UnnamedAddr where
  | UnnamedAddrNone
  | UnnamedAddrLocal
  | UnnamedAddrUnnamed
  deriving BEq, DecidableEq

/-- `%v` of an unnamed-address policy (modelled). -/
def UnnamedAddr.render : UnnamedAddr → String
  | .UnnamedAddrNone => "none"
  | .UnnamedAddrLocal => "local_unnamed_addr"
  | .UnnamedAddrUnnamed => "unnamed_addr"

-- === [ Rendering of types (types package, collaborator) ] ===

mutual

/-- Modelled from the spec: `%v` of a type (the `types` package `String()`
renderer, a collaborator outside the given sources). -/
def LType.render : LType → String
  | .void => "void"
  | .int n => "i" ++ toString n
  | .ptr e => LType.render e ++ "*"
  | .struct fs => "\x7b" ++ LType.renderFields fs ++ "\x7d"
  | .func ret ps variadic =>
    LType.render ret ++ " (" ++ LType.renderFields ps
      ++ (if variadic then ", ..." else "") ++ ")"

/-- Comma-separated rendering of a type list (collaborator, modelled). -/
def LType.renderFields : List LType → String
  | [] => ""
  | [t] => LType.render t
  | t :: ts => LType.render t ++ ", " ++ LType.renderFields ts

end

-- === [ Parameters, call, terminators, basic blocks (collaborators) ] ===

/-- Modelled from the spec: `Param` (ir/param.go is not among the given
sources): a named entity with a type, owned by a `Function` (§3). -/
structure Param where
  LocalName : String := ""
  Typ : LType

/-- Modelled from the spec: the parameter's own definition renderer, a
collaborator invoked by the function header (§4.5): a type-value pair. -/
def Param.Def (p : Param) : String :=
  p.Typ.render ++ " " ++ Local p.LocalName

/-- Modelled from the spec: `InstCall` (not among the given sources): the
one non-terminator instruction variant that implements `value.Named` yet
may have void result type, which `isVoidValue` tests; its result type is
modelled as a plain field. -/
structure InstCall where
  LocalName : String := ""
  Typ : LType

/-- Modelled from the spec: `TermInvoke` (not among the given sources): the
one terminator variant that implements `value.Named`; `isVoidValue` tests
its (possibly void) result type. -/
structure TermInvoke where
  LocalName : String := ""
  Typ : LType

/-- Modelled from the spec: terminators (ir/term.go is not among the given
sources).  `ret` stands for every terminator that does not implement
`value.Named` (the Go type assertion fails, so the numbering pass skips
it); `invoke` is the `value.Named` terminator. -/
inductive Terminator where
  | ret : Terminator
  | invoke : TermInvoke → Terminator

/-- Whether the Go type assertion `block.Term.(value.Named)` succeeds. -/
def Terminator.isNamed : Terminator → Bool
  | .ret => false
  | .invoke _ => true

/-- `isVoidValue` (src/ir/function.go) restricted to terminators: an invoke
terminator with void-return type. -/
def Terminator.isVoidValue : Terminator → Bool
  | .invoke t => t.Typ.isVoid
  | .ret => false

/-- `Name()` through the `value.Named` interface of a terminator. -/
def Terminator.Name : Terminator → String
  | .invoke t => t.LocalName
  | .ret => ""

/-- `SetName` through the `value.Named` interface of a terminator. -/
def Terminator.SetName : Terminator → String → Terminator
  | .invoke t, name => .invoke { t with LocalName := name }
  | .ret, _ => .ret

/-- The non-terminator instruction variants of the core (the seven memory
instructions of src/unnamed/part_000 and the spec-modelled `InstCall`). -/
inductive Inst where
  | alloca : InstAlloca → Inst
  | load : InstLoad → Inst
  | store : InstStore → Inst
  | fence : InstFence → Inst
  | cmpxchg : InstCmpXchg → Inst
  | atomicrmw : InstAtomicRMW → Inst
  | getelementptr : InstGetElementPtr → Inst
  | call : InstCall → Inst

/-- Whether the Go type assertion `inst.(value.Named)` succeeds: every
variant but store and fence carries a result name. -/
def Inst.isNamed : Inst → Bool
  | .store _ => false
  | .fence _ => false
  | _ => true

/-- `isVoidValue` (src/ir/function.go): only a call instruction (or invoke
terminator) can be a named non-value; it is one when its type equals
`types.Void`. -/
def Inst.isVoidValue : Inst → Bool
  | .call c => c.Typ.isVoid
  | _ => false

/-- `Name()` through the `value.Named` interface of an instruction. -/
def Inst.Name : Inst → String
  | .alloca i => i.LocalName
  | .load i => i.LocalName
  | .store _ => ""
  | .fence _ => ""
  | .cmpxchg i => i.LocalName
  | .atomicrmw i => i.LocalName
  | .getelementptr i => i.LocalName
  | .call i => i.LocalName

/-- `SetName` through the `value.Named` interface of an instruction (a
no-op on the variants that do not implement it, on which the numbering
pass never calls it). -/
def Inst.SetName : Inst → String → Inst
  | .alloca i, name => .alloca { i with LocalName := name }
  | .load i, name => .load { i with LocalName := name }
  | .store i, _ => .store i
  | .fence i, _ => .fence i
  | .cmpxchg i, name => .cmpxchg { i with LocalName := name }
  | .atomicrmw i, name => .atomicrmw { i with LocalName := name }
  | .getelementptr i, name => .getelementptr { i with LocalName := name }
  | .call i, name => .call { i with LocalName := name }

/-- Modelled from the spec: `BasicBlock` (ir/basic_block.go is not among the
given sources): a named entity owning an ordered list of non-terminator
instructions and exactly one terminator (§3). -/
structure BasicBlock where
  LocalName : String := ""
  Insts : List Inst := []
  Term : Terminator

/-- Modelled from the spec: the basic block's own renderer, a collaborator
"out of core scope" (§4.5); only the fact that the function body emits one
`block.Def()` line per block matters to the core, so the label line stands
for the whole rendering. -/
def BasicBlock.Def (b : BasicBlock) : String :=
  b.LocalName ++ ":"

-- === [ Function (src/ir/function.go) ] ===

/-- `*types.FuncType` (collaborator): return type, parameter types,
variadic flag. -/
structure FuncType where
  RetType : LType
  Params : List LType := []
  Variadic : Bool := false

/-- `types.NewPointer(sig)` needs the signature as a type. -/
def FuncType.toLType (sig : FuncType) : LType :=
  .func sig.RetType sig.Params sig.Variadic

/-- `Function` (src/ir/function.go), with the optional attribute
collaborators modelled by their renderings: `ReturnAttrs`/`FuncAttrs`
entries, `Comdat` and the `Prefix`/`Prologue`/`Personality` constants are
rendered via `%v`, so only their rendered strings are kept. -/
structure Function where
  Sig : FuncType
  GlobalName : String := ""
  Params : List Param := []
  Blocks : List BasicBlock := []
  Typ : Option LType := none
  Linkage : Linkage := .LinkageNone
  Preemption : Preemption := .PreemptionNone
  Visibility : Visibility := .VisibilityNone
  DLLStorageClass : DLLStorageClass := .DLLStorageClassNone
  CallingConv : CallingConv := .CallingConvNone
  ReturnAttrs : List String := []
  UnnamedAddr : UnnamedAddr := .UnnamedAddrNone
  FuncAttrs : List String := []
  Section : String := ""
  Comdat : Option String := none
  GC : String := ""
  Prefix : Option Value := none
  Prologue : Option Value := none
  Personality : Option Value := none

/-- `Function.Type`: cache `types.NewPointer(f.Sig)` if not present, then
return the cache. -/
def Function.TypeOf (f : Function) : LType × Function :=
  match f.Typ with
  | some t => (t, f)
  | none =>
    let t := LType.ptr f.Sig.toLType
    (t, { f with Typ := some t })

/-- `Function.Ident`. -/
def Function.Ident (f : Function) : String := Global f.GlobalName

-- === [ Function assembler (src/ir/function.go) ] ===

/-- The `" %v"` linkage clause both branches of `Function.Def` emit when
`f.Linkage != enum.LinkageNone`. -/
def optLinkage (f : Function) : String :=
  if f.Linkage != Linkage.LinkageNone then " " ++ f.Linkage.render else ""

/-- The parameter loop of `headerString`: every parameter after the first
is preceded by `", "` in the buffer. -/
def paramsString : List Param → String
  | [] => ""
  | p :: rest => rest.foldl (fun buf q => buf ++ ", " ++ q.Def) p.Def

/-- `headerString` up to (excluding) the `"("`: optional preemption,
visibility, DLL storage class, calling convention, return attributes, then
the return type and the global identifier. -/
def hdrPre (hdr : Function) : String :=
  (if hdr.Preemption != Preemption.PreemptionNone then
    " " ++ hdr.Preemption.render else "")
  ++ (if hdr.Visibility != Visibility.VisibilityNone then
    " " ++ hdr.Visibility.render else "")
  ++ (if hdr.DLLStorageClass != DLLStorageClass.DLLStorageClassNone then
    " " ++ hdr.DLLStorageClass.render else "")
  ++ (if hdr.CallingConv != CallingConv.CallingConvNone then
    " " ++ hdr.CallingConv.render else "")
  ++ hdr.ReturnAttrs.foldl (fun buf attr => buf ++ " " ++ attr) ""
  ++ " " ++ hdr.Sig.RetType.render
  ++ " " ++ Global hdr.GlobalName

/-- `headerString` after (excluding) the `")"`: optional unnamed-address,
function attributes, section, comdat, gc, prefix, prologue, personality. -/
def hdrPost (hdr : Function) : String :=
  (if hdr.UnnamedAddr != UnnamedAddr.UnnamedAddrNone then
    " " ++ hdr.UnnamedAddr.render else "")
  ++ hdr.FuncAttrs.foldl (fun buf attr => buf ++ " " ++ attr) ""
  ++ (if hdr.Section.length > 0 then " section " ++ Quote hdr.Section else "")
  ++ (match hdr.Comdat with
    | some c => " " ++ c
    | none => "")
  ++ (if hdr.GC.length > 0 then " gc " ++ Quote hdr.GC else "")
  ++ (match hdr.Prefix with
    | some c => " prefix " ++ c.Str
    | none => "")
  ++ (match hdr.Prologue with
    | some c => " prologue " ++ c.Str
    | none => "")
  ++ (match hdr.Personality with
    | some c => " personality " ++ c.Str
    | none => "")

/-- `headerString` (src/ir/function.go): the fixed-order function header;
between `"("` and `")"` the parameter list, then the `", "`-prefixed
`"..."` token when the signature is variadic and at least one parameter
was written. -/
def headerString (hdr : Function) : String :=
  hdrPre hdr ++ "("
  ++ paramsString hdr.Params
  ++ (if hdr.Sig.Variadic then
    (if hdr.Params.length > 0 then ", " else "") ++ "..." else "")
  ++ ")" ++ hdrPost hdr

/-- `bodyString` (src/ir/function.go): `"{"`, one `block.Def()` line per
basic block, `"}"`. -/
def bodyString (body : Function) : String :=
  (body.Blocks.foldl (fun buf block => buf ++ block.Def ++ "\n") "\x7b\n")
    ++ "\x7d"

/-- `Function.Def` (src/ir/function.go): declaration (keyword `declare`,
no body) when the basic-block list is empty, definition (keyword `define`,
body appended after a space) otherwise; either branch emits the linkage
clause exactly when the linkage is not `enum.LinkageNone`. -/
def Function.Def (f : Function) : String :=
  if f.Blocks.isEmpty then
    "declare" ++ optLinkage f ++ headerString f
  else
    "define" ++ optLinkage f ++ headerString f ++ " " ++ bodyString f

-- === [ Identifier numbering (src/ir/function.go, AssignIDs) ] ===

/-- Modelled from the spec: `isUnnamed` (helper called by `AssignIDs`, not
among the given sources): an empty bare name means "unnamed" (§3). -/
def isUnnamed (name : String) : Bool := name == ""

/-- Modelled from the spec: `isLocalID` (helper called by `AssignIDs`, not
among the given sources): whether the bare name is already a bare decimal
integer, i.e. a pre-existing explicit numeric local identifier (§4.3). -/
def isLocalID (name : String) : Bool :=
  name.length > 0 && name.data.all Char.isDigit

/-- The identifier-mismatch error of `AssignIDs`:
`errors.Errorf("invalid local ID in function %q, expected %s, got %s",
enc.Global(f.GlobalName), enc.Local(want), enc.Local(got))`. -/
def localIDError (fname want got : String) : String :=
  "invalid local ID in function \"" ++ Global fname ++ "\", expected "
    ++ Local want ++ ", got " ++ Local got

/-- The mutable state of the `AssignIDs` pass: the counter `id` and the
keys of the `names` map in insertion order (the map's values, the renamed
entities themselves, are never read by the pass). -/
structure NumState where
  id : Nat
  names : List String

/-- The `setName` closure of `AssignIDs`, acting on the bare name `got` of
the visited entity: returns the entity's (possibly new) name and the
updated state, or the identifier-mismatch error. -/
def setName (fname : String) (st : NumState) (got : String) :
    Except String (String × NumState) :=
  if isUnnamed got then
    let name := toString st.id
    .ok (name, { id := st.id + 1, names := st.names ++ [name] })
  else if isLocalID got then
    let want := toString st.id
    if want != got then .error (localIDError fname want got)
    else .ok (got, { id := st.id + 1, names := st.names })
  else
    .ok (got, st)

/-- The parameter loop of `AssignIDs`.  Mutation in place becomes explicit
rebuilding; an error aborts the loop, leaving the remaining entities
untouched, and is handed up together with the already-renamed prefix. -/
def assignParams (fname : String) (st : NumState) :
    List Param → List Param × NumState × Option String
  | [] => ([], st, none)
  | p :: ps =>
    match setName fname st p.LocalName with
    | .error e => (p :: ps, st, some e)
    | .ok (nm, st') =>
      match assignParams fname st' ps with
      | (ps', st'', err) => ({ p with LocalName := nm } :: ps', st'', err)

/-- The instruction loop of `AssignIDs`: skip an instruction that is not a
`value.Named`, skip a void value, otherwise `setName` it. -/
def assignInsts (fname : String) (st : NumState) :
    List Inst → List Inst × NumState × Option String
  | [] => ([], st, none)
  | inst :: insts =>
    if !inst.isNamed then
      match assignInsts fname st insts with
      | (insts', st', err) => (inst :: insts', st', err)
    else if inst.isVoidValue then
      match assignInsts fname st insts with
      | (insts', st', err) => (inst :: insts', st', err)
    else
      match setName fname st inst.Name with
      | .error e => (inst :: insts, st, some e)
      | .ok (nm, st') =>
        match assignInsts fname st' insts with
        | (insts', st'', err) => (inst.SetName nm :: insts', st'', err)

/-- The terminator step of `AssignIDs`: skip a terminator that is not a
`value.Named`, skip a void value, otherwise `setName` it. -/
def assignTerm (fname : String) (st : NumState) (term : Terminator) :
    Terminator × NumState × Option String :=
  if !term.isNamed then (term, st, none)
  else if term.isVoidValue then (term, st, none)
  else
    match setName fname st term.Name with
    | .error e => (term, st, some e)
    | .ok (nm, st') => (term.SetName nm, st', none)

/-- The block loop of `AssignIDs`: the block itself, its instructions, its
terminator, then the remaining blocks; the first error aborts. -/
def assignBlocks (fname : String) (st : NumState) :
    List BasicBlock → List BasicBlock × NumState × Option String
  | [] => ([], st, none)
  | b :: bs =>
    match setName fname st b.LocalName with
    | .error e => (b :: bs, st, some e)
    | .ok (nm, st1) =>
      match assignInsts fname st1 b.Insts with
      | (insts', st2, some e) =>
        ({ b with LocalName := nm, Insts := insts' } :: bs, st2, some e)
      | (insts', st2, none) =>
        match assignTerm fname st2 b.Term with
        | (term', st3, some e) =>
          ({ b with LocalName := nm, Insts := insts', Term := term' } :: bs,
            st3, some e)
        | (term', st3, none) =>
          match assignBlocks fname st3 bs with
          | (bs', st4, err) =>
            ({ b with LocalName := nm, Insts := insts', Term := term' } :: bs',
              st4, err)

/-- `Function.AssignIDs` (src/ir/function.go): a no-op on a function with
no basic blocks; otherwise the single counter starts at 0, the parameters
are visited first, then the blocks.  The returned function is the receiver
as the pass left it (renamed in place up to the first error); the second
component is the returned `error`. -/
def Function.AssignIDs (f : Function) : Function × Option String :=
  if f.Blocks.isEmpty then (f, none)
  else
    match assignParams f.GlobalName { id := 0, names := [] } f.Params with
    | (ps, _, some e) => ({ f with Params := ps }, some e)
    | (ps, st1, none) =>
      match assignBlocks f.GlobalName st1 f.Blocks with
      | (bs, _, err) => ({ f with Params := ps, Blocks := bs }, err)

-- === [ Specification-side view of the numbering pass (§4.3) ] ===

/-- Whether the numbering pass visits a non-terminator instruction: it is a
`value.Named` and not a void value (§4.3 step 2b). -/
def instVisited (inst : Inst) : Bool :=
  inst.isNamed && !inst.isVoidValue

/-- Whether the numbering pass visits a terminator (§4.3 step 2c). -/
def termVisited (term : Terminator) : Bool :=
  term.isNamed && !term.isVoidValue

/-- The bare names of the visited instructions of a block, in order. -/
def instGots (insts : List Inst) : List String :=
  (insts.filter instVisited).map Inst.Name

/-- The bare name of the block's terminator, when visited. -/
def termGots (term : Terminator) : List String :=
  if termVisited term then [term.Name] else []

/-- The bare names the pass visits inside one block: the block itself,
its visited instructions, its visited terminator (§4.3 step 2). -/
def blockGots (b : BasicBlock) : List String :=
  b.LocalName :: (instGots b.Insts ++ termGots b.Term)

/-- The bare names the pass visits across the blocks, in block order. -/
def blocksGots : List BasicBlock → List String
  | [] => []
  | b :: bs => blockGots b ++ blocksGots bs

/-- The spec's traversal order, as the visited entities' bare names:
parameters in declaration order, then the blocks (§4.3). -/
def visitNames (f : Function) : List String :=
  f.Params.map Param.LocalName ++ blocksGots f.Blocks

/-- The spec's counter semantics (§4.3), i.e. the numbering pass flattened
over the visit-ordered bare names: a single counter starting at `id`;
an unnamed entity is assigned the counter's decimal rendering and the
counter incremented; a bare-decimal name must equal the counter, which is
then incremented; any other name is left untouched without incrementing;
the first mismatch aborts, leaving every later name untouched.  Returns
the names after the run, the final counter, and the error if any. -/
def counterRun (fname : String) (id : Nat) :
    List String → List String × Nat × Option String
  | [] => ([], id, none)
  | got :: rest =>
    if isUnnamed got then
      match counterRun fname (id + 1) rest with
      | (l, n, e) => (toString id :: l, n, e)
    else if isLocalID got then
      if got == toString id then
        match counterRun fname (id + 1) rest with
        | (l, n, e) => (got :: l, n, e)
      else (got :: rest, id, some (localIDError fname (toString id) got))
    else
      match counterRun fname id rest with
      | (l, n, e) => (got :: l, n, e)

/-- Writes a visit-ordered name list back onto the parameters; returns the
unconsumed names. -/
def applyParams : List Param → List String → List Param × List String
  | [], l => ([], l)
  | p :: ps, [] => (p :: ps, [])
  | p :: ps, nm :: l =>
    match applyParams ps l with
    | (ps', l') => ({ p with LocalName := nm } :: ps', l')

/-- Writes a visit-ordered name list back onto the visited instructions;
returns the unconsumed names. -/
def applyInsts : List Inst → List String → List Inst × List String
  | [], l => ([], l)
  | inst :: insts, l =>
    if instVisited inst then
      match l with
      | [] => (inst :: insts, [])
      | nm :: l' =>
        match applyInsts insts l' with
        | (insts', l'') => (inst.SetName nm :: insts', l'')
    else
      match applyInsts insts l with
      | (insts', l') => (inst :: insts', l')

/-- Writes a visit-ordered name list back onto the terminator, when it is
visited; returns the unconsumed names. -/
def applyTerm (term : Terminator) (l : List String) :
    Terminator × List String :=
  if termVisited term then
    match l with
    | [] => (term, [])
    | nm :: l' => (term.SetName nm, l')
  else (term, l)

/-- Writes a visit-ordered name list back onto the blocks; returns the
unconsumed names. -/
def applyBlocks : List BasicBlock → List String → List BasicBlock × List String
  | [], l => ([], l)
  | b :: bs, [] => (b :: bs, [])
  | b :: bs, nm :: l =>
    match applyInsts b.Insts l with
    | (insts', l1) =>
      match applyTerm b.Term l1 with
      | (term', l2) =>
        match applyBlocks bs l2 with
        | (bs', l3) =>
          ({ b with LocalName := nm, Insts := insts', Term := term' } :: bs',
            l3)

/-- The function whose visited entities carry, in visit order, the names of
`l`, everything else (entity structure, skipped entities, attributes)
untouched. -/
def applyNames (f : Function) (l : List String) : Function :=
  match applyParams f.Params l with
  | (ps, l1) =>
    match applyBlocks f.Blocks l1 with
    | (bs, _) => { f with Params := ps, Blocks := bs }

/-- Concatenation of the renderings of a list, in order ("one line per
basic block" is `joinMap (fun b => b.Def ++ "\n")`). -/
def joinMap (g : α → String) : List α → String
  | [] => ""
  | x :: xs => g x ++ joinMap g xs

-- === [ Concrete instances used by the witnesses ] ===

/-- §8's numbering-determinism block: `[unnamed-alloca, unnamed-load,
ret-void]`. -/
def exBlock : BasicBlock :=
  { LocalName := "",
    Insts := [Inst.alloca (NewAlloca (.int 32)),
              Inst.load (NewLoad { Typ := .ptr (.int 32) })],
    Term := .ret }

/-- §8's numbering-determinism function: parameters `[unnamed, "x"]` and
the one block above. -/
def exF : Function :=
  { Sig := { RetType := .void }, GlobalName := "f",
    Params := [{ LocalName := "", Typ := .int 32 },
               { LocalName := "x", Typ := .int 32 }],
    Blocks := [exBlock] }

/-- `exF` as §8 says numbering must leave it: `p0 → "0"`, `p1` stays
`"x"`, block `→ "1"`, alloca `→ "2"`, load `→ "3"`. -/
def exFNumbered : Function :=
  { exF with
    Params := [{ LocalName := "0", Typ := .int 32 },
               { LocalName := "x", Typ := .int 32 }],
    Blocks := [{ exBlock with
      LocalName := "1",
      Insts := [Inst.alloca { NewAlloca (.int 32) with LocalName := "2" },
                Inst.load { NewLoad { Typ := .ptr (.int 32) }
                  with LocalName := "3" }] }] }

/-- §8's numbering-validation block: two unnamed instructions, then one
pre-named `"5"`, visited when the counter is 3 (after the block label took
0 and the two instructions took 1 and 2). -/
def exMismatchBlock : BasicBlock :=
  { LocalName := "",
    Insts := [Inst.alloca (NewAlloca (.int 8)),
              Inst.alloca (NewAlloca (.int 8)),
              Inst.alloca { NewAlloca (.int 8) with LocalName := "5" }],
    Term := .ret }

/-- §8's numbering-validation function. -/
def exMismatchF : Function :=
  { Sig := { RetType := .void }, GlobalName := "f",
    Blocks := [exMismatchBlock] }

/-- `exMismatchF` as the aborted pass leaves it: the block and the first
two instructions renamed, the mismatching instruction and everything after
untouched. -/
def exMismatchPartial : Function :=
  { exMismatchF with
    Blocks := [{ exMismatchBlock with
      LocalName := "0",
      Insts := [Inst.alloca { NewAlloca (.int 8) with LocalName := "1" },
                Inst.alloca { NewAlloca (.int 8) with LocalName := "2" },
                Inst.alloca { NewAlloca (.int 8) with LocalName := "5" }] }] }

/-- A declaration (no blocks) with internal linkage explicitly set. -/
def declInternalF : Function :=
  { Sig := { RetType := .void }, GlobalName := "f",
    Linkage := .LinkageInternal }

/-- A variadic declaration with zero parameters. -/
def variadicF : Function :=
  { Sig := { RetType := .void, Variadic := true }, GlobalName := "f" }

/-- A load from a concrete pointer-typed source. -/
def exLoadPtr : InstLoad := NewLoad { Typ := .ptr (.int 32) }

/-- `exLoadPtr` after its first type access populated the cache. -/
def exLoadCached : InstLoad := { exLoadPtr with Typ := some (.int 32) }

/-- `exLoadCached` after its source operand was swapped for a non-pointer
value (a construction-time invariant violation). -/
def exLoadMutated : InstLoad := { exLoadCached with Src := { Typ := .void } }

-- === [ Helper lemmas: the cache after a first type access ] ===

theorem typeOf_cache_function {f : Function} {t : LType} {f' : Function}
    (h : f.TypeOf = (t, f')) : f'.Typ = some t := by
  unfold Function.TypeOf at h
  split at h
  next a heq => cases h; simpa using heq
  next heq => cases h; rfl

theorem typeOf_cache_alloca {i : InstAlloca} {t : LType} {i' : InstAlloca}
    (h : i.TypeOf = (t, i')) : i'.Typ = some t := by
  unfold InstAlloca.TypeOf at h
  split at h
  next a heq => cases h; simpa using heq
  next heq => cases h; rfl

theorem typeOf_cache_load {i : InstLoad} {t : LType} {i' : InstLoad}
    (h : i.TypeOf = .ok (t, i')) : i'.Typ = some t := by
  unfold InstLoad.TypeOf at h
  split at h
  next a heq => cases h; simpa using heq
  next heq =>
    split at h
    next elem heq2 => cases h; rfl
    next t2 heq2 hne => cases h

theorem typeOf_cache_cmpxchg {i : InstCmpXchg} {t : LType} {i' : InstCmpXchg}
    (h : i.TypeOf = (t, i')) : i'.Typ = some t := by
  unfold InstCmpXchg.TypeOf at h
  split at h
  next a heq => cases h; simpa using heq
  next heq => cases h; rfl

theorem typeOf_cache_rmw {i : InstAtomicRMW} {t : LType} {i' : InstAtomicRMW}
    (h : i.TypeOf = .ok (t, i')) : i'.Typ = some t := by
  unfold InstAtomicRMW.TypeOf at h
  split at h
  next a heq => cases h; simpa using heq
  next heq =>
    split at h
    next elem heq2 => cases h; rfl
    next t2 heq2 hne => cases h

theorem typeOf_cache_gep {i : InstGetElementPtr} {t : LType}
    {i' : InstGetElementPtr} (h : i.TypeOf = (t, i')) : i'.Typ = some t := by
  unfold InstGetElementPtr.TypeOf at h
  split at h
  next a heq => cases h; simpa using heq
  next heq => cases h; rfl

-- === [ C4 ] ===

/-- Claim C4: for every load instruction whose source operand's type is a
pointer type, the result-type accessor returns the pointee (element) type
of that pointer type; likewise, for every atomic read-modify-write
instruction whose destination operand's type is a pointer type, the
result-type accessor returns the pointee type of the destination's pointer
type. -/
theorem load_rmw_pointee_type :
    (∀ (src : Value) (e : LType), src.Typ = LType.ptr e →
      (NewLoad src).TypeOf = .ok (e, { NewLoad src with Typ := some e })) ∧
    (∀ (op : AtomicOp) (dst x : Value) (ord : AtomicOrdering) (e : LType),
      dst.Typ = LType.ptr e →
      (NewAtomicRMW op dst x ord).TypeOf
        = .ok (e, { NewAtomicRMW op dst x ord with Typ := some e })) := by
  constructor
  · intro src e h
    simp [NewLoad, InstLoad.TypeOf, Value.TypeOf, h]
  · intro op dst x ord e h
    simp [NewAtomicRMW, InstAtomicRMW.TypeOf, Value.TypeOf, h]

/-- Witness for C4 at a concrete pointer-typed source and destination. -/
theorem load_rmw_pointee_type_witness :
    (NewLoad { Typ := .ptr (.int 32) }).TypeOf
      = .ok (.int 32, { NewLoad { Typ := .ptr (.int 32) }
          with Typ := some (.int 32) }) ∧
    (NewAtomicRMW .add { Typ := .ptr (.int 8) } { Typ := .int 8 }
        .seqCst).TypeOf
      = .ok (.int 8, { NewAtomicRMW .add { Typ := .ptr (.int 8) }
          { Typ := .int 8 } .seqCst with Typ := some (.int 8) }) :=
  ⟨load_rmw_pointee_type.1 { Typ := .ptr (.int 32) } (.int 32) rfl,
   load_rmw_pointee_type.2 .add { Typ := .ptr (.int 8) } { Typ := .int 8 }
     .seqCst (.int 8) rfl⟩

-- === [ C5 ] ===

/-- Claim C5: for every load instruction whose source operand's type is not
a pointer type (and whose result-type cache has not been populated), the
first call to the result-type accessor raises a fatal type error instead of
returning a type; the same holds for an atomic read-modify-write whose
destination operand's type is not a pointer type.  Under the pointer-typed
precondition this error branch is unreachable. -/
theorem load_rmw_nonpointer_fatal :
    (∀ inst : InstLoad, inst.Typ = none → inst.Src.Typ.isPtr = false →
      inst.TypeOf = .error
        ("invalid source type; expected *types.PointerType, got "
          ++ inst.Src.Typ.goTypeName)) ∧
    (∀ inst : InstAtomicRMW, inst.Typ = none → inst.Dst.Typ.isPtr = false →
      inst.TypeOf = .error
        ("invalid destination type; expected *types.PointerType, got "
          ++ inst.Dst.Typ.goTypeName)) ∧
    (∀ (inst : InstLoad) (e : LType), inst.Typ = none →
      inst.Src.Typ = .ptr e →
      inst.TypeOf = .ok (e, { inst with Typ := some e })) ∧
    (∀ (inst : InstAtomicRMW) (e : LType), inst.Typ = none →
      inst.Dst.Typ = .ptr e →
      inst.TypeOf = .ok (e, { inst with Typ := some e })) := by
  refine ⟨?_, ?_, ?_, ?_⟩
  · intro inst h1 h2
    cases hs : inst.Src.Typ <;>
      simp_all [InstLoad.TypeOf, Value.TypeOf, LType.isPtr]
  · intro inst h1 h2
    cases hs : inst.Dst.Typ <;>
      simp_all [InstAtomicRMW.TypeOf, Value.TypeOf, LType.isPtr]
  · intro inst e h1 h2
    simp [InstLoad.TypeOf, Value.TypeOf, h1, h2]
  · intro inst e h1 h2
    simp [InstAtomicRMW.TypeOf, Value.TypeOf, h1, h2]

/-- Witness for C5 at a concrete integer-typed (non-pointer) operand. -/
theorem load_rmw_nonpointer_fatal_witness :
    (NewLoad { Typ := .int 32 }).TypeOf
      = .error "invalid source type; expected *types.PointerType, got *types.IntType" ∧
    (NewAtomicRMW .add { Typ := .void } { Typ := .int 8 } .seqCst).TypeOf
      = .error "invalid destination type; expected *types.PointerType, got *types.VoidType" :=
  ⟨load_rmw_nonpointer_fatal.1 (NewLoad { Typ := .int 32 }) rfl rfl,
   load_rmw_nonpointer_fatal.2.1
     (NewAtomicRMW .add { Typ := .void } { Typ := .int 8 } .seqCst) rfl rfl⟩

-- === [ C6 ] ===

/-- Claim C6: for every compare-exchange instruction, the result-type
accessor returns a two-field struct type whose first field equals the type
of the instruction's "new value" operand and whose second field is the
single-bit boolean type i1, regardless of the types of the address and
compare operands. -/
theorem cmpxchg_result_shape :
    (∀ inst : InstCmpXchg, inst.Typ = none →
      inst.TypeOf = (LType.struct [inst.New.Typ, LType.int 1],
        { inst with Typ := some (LType.struct [inst.New.Typ, LType.int 1]) })) ∧
    (∀ (p c nw : Value) (so fo : AtomicOrdering),
      ((NewCmpXchg p c nw so fo).TypeOf).1
        = LType.struct [nw.Typ, LType.int 1]) := by
  constructor
  · intro inst h
    simp [InstCmpXchg.TypeOf, Value.TypeOf, h]
  · intro p c nw so fo
    rfl

/-- Witness for C6 at a concrete compare-exchange. -/
theorem cmpxchg_result_shape_witness :
    (NewCmpXchg { Typ := .ptr (.int 64) } { Typ := .int 64 }
        { Typ := .int 64 } .seqCst .seqCst).TypeOf
      = (LType.struct [.int 64, .int 1],
        { NewCmpXchg { Typ := .ptr (.int 64) } { Typ := .int 64 }
            { Typ := .int 64 } .seqCst .seqCst
          with Typ := some (LType.struct [.int 64, .int 1]) }) :=
  cmpxchg_result_shape.1
    (NewCmpXchg { Typ := .ptr (.int 64) } { Typ := .int 64 }
      { Typ := .int 64 } .seqCst .seqCst) rfl

-- === [ C9 ] ===

/-- Claim C9: for every function and every result-producing memory
instruction, calling the type accessor twice returns equal type objects
both times, and once the cached type field is set it is never recomputed:
changing an operand (or the signature) after the first type access does not
change the result of subsequent type accesses. -/
theorem type_cache_stability :
    (∀ (f : Function) (t : LType) (f' : Function), f.TypeOf = (t, f') →
      f'.TypeOf = (t, f') ∧ ∀ sig : FuncType,
        ({ f' with Sig := sig } : Function).TypeOf
          = (t, { f' with Sig := sig })) ∧
    (∀ (i : InstAlloca) (t : LType) (i' : InstAlloca), i.TypeOf = (t, i') →
      i'.TypeOf = (t, i') ∧ ∀ et : LType,
        ({ i' with ElemType := et } : InstAlloca).TypeOf
          = (t, { i' with ElemType := et })) ∧
    (∀ (i : InstLoad) (t : LType) (i' : InstLoad), i.TypeOf = .ok (t, i') →
      i'.TypeOf = .ok (t, i') ∧ ∀ v : Value,
        ({ i' with Src := v } : InstLoad).TypeOf
          = .ok (t, { i' with Src := v })) ∧
    (∀ (i : InstCmpXchg) (t : LType) (i' : InstCmpXchg), i.TypeOf = (t, i') →
      i'.TypeOf = (t, i') ∧ ∀ v : Value,
        ({ i' with New := v } : InstCmpXchg).TypeOf
          = (t, { i' with New := v })) ∧
    (∀ (i : InstAtomicRMW) (t : LType) (i' : InstAtomicRMW),
      i.TypeOf = .ok (t, i') →
      i'.TypeOf = .ok (t, i') ∧ ∀ v : Value,
        ({ i' with Dst := v } : InstAtomicRMW).TypeOf
          = .ok (t, { i' with Dst := v })) ∧
    (∀ (i : InstGetElementPtr) (t : LType) (i' : InstGetElementPtr),
      i.TypeOf = (t, i') →
      i'.TypeOf = (t, i') ∧ ∀ et : LType,
        ({ i' with ElemType := et } : InstGetElementPtr).TypeOf
          = (t, { i' with ElemType := et })) := by
  refine ⟨?_, ?_, ?_, ?_, ?_, ?_⟩
  · intro f t f' h
    have hc := typeOf_cache_function h
    exact ⟨by simp [Function.TypeOf, hc], fun sig => by
      simp [Function.TypeOf, hc]⟩
  · intro i t i' h
    have hc := typeOf_cache_alloca h
    exact ⟨by simp [InstAlloca.TypeOf, hc], fun et => by
      simp [InstAlloca.TypeOf, hc]⟩
  · intro i t i' h
    have hc := typeOf_cache_load h
    exact ⟨by simp [InstLoad.TypeOf, hc], fun v => by
      simp [InstLoad.TypeOf, hc]⟩
  · intro i t i' h
    have hc := typeOf_cache_cmpxchg h
    exact ⟨by simp [InstCmpXchg.TypeOf, hc], fun v => by
      simp [InstCmpXchg.TypeOf, hc]⟩
  · intro i t i' h
    have hc := typeOf_cache_rmw h
    exact ⟨by simp [InstAtomicRMW.TypeOf, hc], fun v => by
      simp [InstAtomicRMW.TypeOf, hc]⟩
  · intro i t i' h
    have hc := typeOf_cache_gep h
    exact ⟨by simp [InstGetElementPtr.TypeOf, hc], fun et => by
      simp [InstGetElementPtr.TypeOf, hc]⟩

/-- Witness for C9: a concrete load keeps its first computed type after the
source operand is swapped for a non-pointer value. -/
theorem type_cache_stability_witness :
    exLoadMutated.TypeOf = .ok (.int 32, exLoadMutated) :=
  (type_cache_stability.2.2.1 exLoadPtr (.int 32) exLoadCached rfl).2
    { Typ := .void }

-- === [ Helper lemmas: buffer folds as concatenations ] ===

theorem foldl_def_line (bs : List BasicBlock) :
    ∀ acc : String,
      bs.foldl (fun buf block => buf ++ block.Def ++ "\n") acc
        = acc ++ joinMap (fun b => b.Def ++ "\n") bs := by
  induction bs with
  | nil => intro acc; simp [joinMap]
  | cons b bs ih =>
    intro acc
    rw [List.foldl_cons, ih]
    simp [joinMap, String.append_assoc]

theorem bodyString_eq (f : Function) :
    bodyString f
      = "\x7b\n" ++ joinMap (fun b => b.Def ++ "\n") f.Blocks ++ "\x7d" := by
  unfold bodyString
  rw [foldl_def_line]

theorem foldl_comma_def (ps : List Param) :
    ∀ acc : String,
      ps.foldl (fun buf q => buf ++ ", " ++ q.Def) acc
        = acc ++ joinMap (fun q => ", " ++ q.Def) ps := by
  induction ps with
  | nil => intro acc; simp [joinMap]
  | cons p ps ih =>
    intro acc
    rw [List.foldl_cons, ih]
    simp [joinMap, String.append_assoc]

theorem intercalate_go_eq (s : String) :
    ∀ (l : List String) (acc : String),
      String.intercalate.go acc s l = acc ++ joinMap (fun x => s ++ x) l := by
  intro l
  induction l with
  | nil => intro acc; simp [String.intercalate.go, joinMap]
  | cons a as ih =>
    intro acc
    rw [show String.intercalate.go acc s (a :: as)
      = String.intercalate.go (acc ++ s ++ a) s as from rfl, ih]
    simp [joinMap, String.append_assoc]

theorem joinMap_map (g : β → String) (h : α → β) :
    ∀ l : List α, joinMap g (l.map h) = joinMap (fun x => g (h x)) l := by
  intro l
  induction l with
  | nil => rfl
  | cons x xs ih => simp [joinMap, ih]

theorem paramsString_intercalate (ps : List Param) :
    paramsString ps = String.intercalate ", " (ps.map Param.Def) := by
  cases ps with
  | nil => rfl
  | cons p rest =>
    show rest.foldl (fun buf q => buf ++ ", " ++ q.Def) p.Def
      = String.intercalate ", " (p.Def :: rest.map Param.Def)
    rw [foldl_comma_def,
      show String.intercalate ", " (p.Def :: rest.map Param.Def)
        = String.intercalate.go p.Def ", " (rest.map Param.Def) from rfl,
      intercalate_go_eq, joinMap_map]

-- === [ C7 ] ===

/-- Claim C7: rendering a function's definition/declaration text begins
with `declare` and contains no body when the basic-block list is empty, and
begins with `define` and ends with a non-empty body — opening brace, one
line per basic block, closing brace — when the list is non-empty; appending
a first block and re-rendering therefore switches the leading keyword and
adds the body. -/
theorem def_declare_define_switch :
    ∀ (f : Function) (b : BasicBlock),
      (f.Blocks = [] →
        (∃ rest, f.Def = "declare" ++ rest) ∧
        f.Def = "declare" ++ optLinkage f ++ headerString f) ∧
      (f.Blocks ≠ [] →
        (∃ rest, f.Def = "define" ++ rest) ∧
        f.Def = "define" ++ optLinkage f ++ headerString f ++ " "
          ++ ("\x7b\n" ++ joinMap (fun blk => blk.Def ++ "\n") f.Blocks
            ++ "\x7d")) ∧
      (f.Blocks = [] →
        ({ f with Blocks := [b] } : Function).Def
          = "define" ++ optLinkage f ++ headerString f ++ " "
            ++ ("\x7b\n" ++ (b.Def ++ "\n") ++ "\x7d")) := by
  intro f b
  refine ⟨?_, ?_, ?_⟩
  · intro h
    have he : f.Blocks.isEmpty = true := by simp [h]
    exact ⟨⟨optLinkage f ++ headerString f, by
      simp [Function.Def, he, String.append_assoc]⟩, by
      simp [Function.Def, he]⟩
  · intro h
    have he : f.Blocks.isEmpty = false := by
      cases hb : f.Blocks with
      | nil => exact absurd hb h
      | cons x xs => rfl
    constructor
    · exact ⟨optLinkage f ++ headerString f ++ " " ++ bodyString f, by
        simp [Function.Def, he, String.append_assoc]⟩
    · simp [Function.Def, he, bodyString_eq, String.append_assoc]
  · intro h
    show "define" ++ optLinkage { f with Blocks := [b] }
        ++ headerString { f with Blocks := [b] } ++ " "
        ++ bodyString { f with Blocks := [b] } = _
    have h1 : optLinkage { f with Blocks := [b] } = optLinkage f := rfl
    have h2 : headerString { f with Blocks := [b] } = headerString f := rfl
    rw [h1, h2, bodyString_eq]
    simp [joinMap, String.append_assoc]

/-- Witness for C7: `variadicF` (no blocks) renders as a declaration and,
with `exBlock` appended, as a definition with a one-line body. -/
theorem def_declare_define_switch_witness :
    (∃ rest, variadicF.Def = "declare" ++ rest) ∧
    ({ variadicF with Blocks := [exBlock] } : Function).Def
      = "define" ++ optLinkage variadicF ++ headerString variadicF ++ " "
        ++ ("\x7b\n" ++ (exBlock.Def ++ "\n") ++ "\x7d") :=
  ⟨((def_declare_define_switch variadicF exBlock).1 rfl).1,
   (def_declare_define_switch variadicF exBlock).2.2 rfl⟩

-- === [ C8 ] ===

/-- Claim C8 counterexample: a declaration (empty basic-block list) whose
linkage is internal — not external-only — does render a linkage keyword:
its text is `declare internal void @f()` rather than the linkage-free
`"declare" ++ headerString`. -/
theorem declare_linkage_counterexample :
    declInternalF.Blocks = [] ∧
    declInternalF.Linkage = Linkage.LinkageInternal ∧
    declInternalF.Def = "declare internal void @f()" ∧
    declInternalF.Def ≠ "declare" ++ headerString declInternalF := by
  refine ⟨rfl, rfl, by decide, by decide⟩

/-- Claim C8 as amended: for every function with an empty basic-block list,
the rendered declaration omits the linkage clause exactly when the linkage
is the unset (`LinkageNone`) value; any set linkage value — external or
otherwise — renders its keyword after `declare`. -/
theorem declare_linkage_amended :
    ∀ f : Function, f.Blocks = [] →
      (f.Linkage = Linkage.LinkageNone →
        f.Def = "declare" ++ headerString f) ∧
      (f.Linkage ≠ Linkage.LinkageNone →
        f.Def = "declare " ++ f.Linkage.render ++ headerString f) := by
  intro f h
  have he : f.Blocks.isEmpty = true := by simp [h]
  constructor
  · intro hl
    have hopt : optLinkage f = "" := by
      unfold optLinkage
      rw [hl]
      rfl
    simp [Function.Def, he, hopt]
  · intro hl
    have hopt : optLinkage f = " " ++ f.Linkage.render := by
      unfold optLinkage
      cases hL : f.Linkage with
      | LinkageNone => exact absurd hL hl
      | LinkageExternal => rfl
      | LinkageInternal => rfl
      | LinkageWeak => rfl
      | LinkagePrivate => rfl
    simp only [Function.Def, he, if_true, hopt]
    rw [← String.append_assoc "declare" " " f.Linkage.render,
      show ("declare" : String) ++ " " = "declare " from rfl]

/-- Witness for C8 (amended): the internal-linkage declaration. -/
theorem declare_linkage_amended_witness :
    declInternalF.Def
      = "declare " ++ declInternalF.Linkage.render
        ++ headerString declInternalF :=
  (declare_linkage_amended declInternalF rfl).2 (by decide)

-- === [ C10 ] ===

/-- Claim C10: in the rendered function header, parameters between `(` and
`)` are separated by `", "`, and when the signature is variadic the token
`...` is appended after the parameters, preceded by `", "` exactly when at
least one parameter is present; hence a variadic function with zero
parameters renders its parameter list as `(...)` with no comma. -/
theorem header_params_separators :
    (∀ f : Function,
      headerString f = hdrPre f ++ "("
        ++ String.intercalate ", " (f.Params.map Param.Def)
        ++ (if f.Sig.Variadic then
          (if f.Params.isEmpty then "" else ", ") ++ "..." else "")
        ++ ")" ++ hdrPost f) ∧
    headerString variadicF
      = hdrPre variadicF ++ "(...)" ++ hdrPost variadicF := by
  constructor
  · intro f
    unfold headerString
    rw [← paramsString_intercalate]
    have : (if 0 < f.Params.length then ", " else "")
        = (if f.Params.isEmpty then "" else ", ") := by
      rcases f.Params with _ | ⟨p, ps⟩ <;> simp
    simp only [gt_iff_lt, this]
  · decide

-- === [ Helper lemmas: the numbering pass ] ===

theorem instSetName_self (inst : Inst) : inst.SetName inst.Name = inst := by
  cases inst <;> rfl

theorem termSetName_self (term : Terminator) :
    term.SetName term.Name = term := by
  cases term <;> rfl

theorem numState_eta (st : NumState) : (⟨st.id, st.names⟩ : NumState) = st :=
  rfl

theorem counterRun_cons (fname : String) (id : Nat) (got : String)
    (rest : List String) :
    counterRun fname id (got :: rest)
      = if isUnnamed got then
          match counterRun fname (id + 1) rest with
          | (l, n, e) => (toString id :: l, n, e)
        else if isLocalID got then
          if got == toString id then
            match counterRun fname (id + 1) rest with
            | (l, n, e) => (got :: l, n, e)
          else (got :: rest, id, some (localIDError fname (toString id) got))
        else
          match counterRun fname id rest with
          | (l, n, e) => (got :: l, n, e) := rfl

theorem counterRun_cons_unnamed {got : String} (fname : String) (id : Nat)
    (rest : List String) (h : isUnnamed got = true) :
    counterRun fname id (got :: rest)
      = (toString id :: (counterRun fname (id + 1) rest).1,
         (counterRun fname (id + 1) rest).2.1,
         (counterRun fname (id + 1) rest).2.2) := by
  rw [counterRun_cons, h]
  rcases hcr : counterRun fname (id + 1) rest with ⟨l, n, e⟩
  simp

theorem counterRun_cons_numOk {got : String} (fname : String) (id : Nat)
    (rest : List String) (h1 : isUnnamed got = false)
    (h2 : isLocalID got = true) (h3 : got = toString id) :
    counterRun fname id (got :: rest)
      = (got :: (counterRun fname (id + 1) rest).1,
         (counterRun fname (id + 1) rest).2.1,
         (counterRun fname (id + 1) rest).2.2) := by
  have hb : (got == toString id) = true := by simp [h3]
  rw [counterRun_cons, h1, h2, hb]
  rcases hcr : counterRun fname (id + 1) rest with ⟨l, n, e⟩
  simp

theorem counterRun_cons_mismatch {got : String} (fname : String) (id : Nat)
    (rest : List String) (h1 : isUnnamed got = false)
    (h2 : isLocalID got = true) (h3 : got ≠ toString id) :
    counterRun fname id (got :: rest)
      = (got :: rest, id, some (localIDError fname (toString id) got)) := by
  have hb : (got == toString id) = false := by simp [h3]
  rw [counterRun_cons, h1, h2, hb]
  simp

theorem counterRun_cons_named {got : String} (fname : String) (id : Nat)
    (rest : List String) (h1 : isUnnamed got = false)
    (h2 : isLocalID got = false) :
    counterRun fname id (got :: rest)
      = (got :: (counterRun fname id rest).1,
         (counterRun fname id rest).2.1,
         (counterRun fname id rest).2.2) := by
  rw [counterRun_cons, h1, h2]
  rcases hcr : counterRun fname id rest with ⟨l, n, e⟩
  simp

theorem counterRun_length (fname : String) :
    ∀ (gots : List String) (id : Nat),
      (counterRun fname id gots).1.length = gots.length := by
  intro gots
  induction gots with
  | nil => intro id; rfl
  | cons got rest ih =>
    intro id
    by_cases h1 : isUnnamed got = true
    · rw [counterRun_cons_unnamed fname id rest h1]
      simp [ih]
    · rw [Bool.not_eq_true] at h1
      by_cases h2 : isLocalID got = true
      · by_cases h3 : got = toString id
        · rw [counterRun_cons_numOk fname id rest h1 h2 h3]
          simp [ih]
        · rw [counterRun_cons_mismatch fname id rest h1 h2 h3]
      · rw [Bool.not_eq_true] at h2
        rw [counterRun_cons_named fname id rest h1 h2]
        simp [ih]

theorem counterRun_append_ok (fname : String) :
    ∀ (xs ys : List String) (id : Nat) (l : List String) (n : Nat),
      counterRun fname id xs = (l, n, none) →
      counterRun fname id (xs ++ ys)
        = (l ++ (counterRun fname n ys).1, (counterRun fname n ys).2.1,
           (counterRun fname n ys).2.2) := by
  intro xs
  induction xs with
  | nil =>
    intro ys id l n h
    obtain ⟨rfl, rfl⟩ : l = [] ∧ n = id := by
      cases h
      exact ⟨rfl, rfl⟩
    simp
  | cons got rest ih =>
    intro ys id l n h
    by_cases h1 : isUnnamed got = true
    · rw [counterRun_cons_unnamed fname id rest h1] at h
      rcases hcr : counterRun fname (id + 1) rest with ⟨l2, n2, e2⟩
      rw [hcr] at h
      cases h
      have := ih ys (id + 1) l2 n2 hcr
      rw [show (got :: rest) ++ ys = got :: (rest ++ ys) from rfl,
        counterRun_cons_unnamed fname id (rest ++ ys) h1, this]
      simp
    · rw [Bool.not_eq_true] at h1
      by_cases h2 : isLocalID got = true
      · by_cases h3 : got = toString id
        · rw [counterRun_cons_numOk fname id rest h1 h2 h3] at h
          rcases hcr : counterRun fname (id + 1) rest with ⟨l2, n2, e2⟩
          rw [hcr] at h
          cases h
          have := ih ys (id + 1) l2 n2 hcr
          rw [show (got :: rest) ++ ys = got :: (rest ++ ys) from rfl,
            counterRun_cons_numOk fname id (rest ++ ys) h1 h2 h3, this]
          simp
        · rw [counterRun_cons_mismatch fname id rest h1 h2 h3] at h
          cases h
      · rw [Bool.not_eq_true] at h2
        rw [counterRun_cons_named fname id rest h1 h2] at h
        rcases hcr : counterRun fname id rest with ⟨l2, n2, e2⟩
        rw [hcr] at h
        cases h
        have := ih ys id l2 n2 hcr
        rw [show (got :: rest) ++ ys = got :: (rest ++ ys) from rfl,
          counterRun_cons_named fname id (rest ++ ys) h1 h2, this]
        simp

theorem counterRun_append_err (fname : String) :
    ∀ (xs ys : List String) (id : Nat) (l : List String) (n : Nat)
      (e : String),
      counterRun fname id xs = (l, n, some e) →
      counterRun fname id (xs ++ ys) = (l ++ ys, n, some e) := by
  intro xs
  induction xs with
  | nil =>
    intro ys id l n e h
    cases h
  | cons got rest ih =>
    intro ys id l n e h
    by_cases h1 : isUnnamed got = true
    · rw [counterRun_cons_unnamed fname id rest h1] at h
      rcases hcr : counterRun fname (id + 1) rest with ⟨l2, n2, e2⟩
      rw [hcr] at h
      cases h
      have := ih ys (id + 1) l2 n2 e hcr
      rw [show (got :: rest) ++ ys = got :: (rest ++ ys) from rfl,
        counterRun_cons_unnamed fname id (rest ++ ys) h1, this]
      simp
    · rw [Bool.not_eq_true] at h1
      by_cases h2 : isLocalID got = true
      · by_cases h3 : got = toString id
        · rw [counterRun_cons_numOk fname id rest h1 h2 h3] at h
          rcases hcr : counterRun fname (id + 1) rest with ⟨l2, n2, e2⟩
          rw [hcr] at h
          cases h
          have := ih ys (id + 1) l2 n2 e hcr
          rw [show (got :: rest) ++ ys = got :: (rest ++ ys) from rfl,
            counterRun_cons_numOk fname id (rest ++ ys) h1 h2 h3, this]
          simp
        · rw [counterRun_cons_mismatch fname id rest h1 h2 h3] at h
          cases h
          rw [show (got :: rest) ++ ys = got :: (rest ++ ys) from rfl,
            counterRun_cons_mismatch fname id (rest ++ ys) h1 h2 h3]
      · rw [Bool.not_eq_true] at h2
        rw [counterRun_cons_named fname id rest h1 h2] at h
        rcases hcr : counterRun fname id rest with ⟨l2, n2, e2⟩
        rw [hcr] at h
        cases h
        have := ih ys id l2 n2 e hcr
        rw [show (got :: rest) ++ ys = got :: (rest ++ ys) from rfl,
          counterRun_cons_named fname id (rest ++ ys) h1 h2, this]
        simp

theorem applyParams_cons (p : Param) (ps : List Param) (nm : String)
    (l : List String) :
    applyParams (p :: ps) (nm :: l)
      = ({ p with LocalName := nm } :: (applyParams ps l).1,
         (applyParams ps l).2) := by
  show (match applyParams ps l with
    | (ps', l') => ({ p with LocalName := nm } :: ps', l')) = _
  rcases h : applyParams ps l with ⟨ps', l'⟩
  simp

theorem applyInsts_cons (inst : Inst) (insts : List Inst)
    (l : List String) :
    applyInsts (inst :: insts) l
      = if instVisited inst then
          match l with
          | [] => (inst :: insts, [])
          | nm :: l' =>
            match applyInsts insts l' with
            | (insts', l'') => (inst.SetName nm :: insts', l'')
        else
          match applyInsts insts l with
          | (insts', l') => (inst :: insts', l') := rfl

theorem applyInsts_cons_vis {inst : Inst} (insts : List Inst) (nm : String)
    (l : List String) (hv : instVisited inst = true) :
    applyInsts (inst :: insts) (nm :: l)
      = (inst.SetName nm :: (applyInsts insts l).1, (applyInsts insts l).2) := by
  rw [applyInsts_cons, hv]
  rcases h : applyInsts insts l with ⟨insts', l'⟩
  simp [h]

theorem applyInsts_cons_skip {inst : Inst} (insts : List Inst)
    (l : List String) (hv : instVisited inst = false) :
    applyInsts (inst :: insts) l
      = (inst :: (applyInsts insts l).1, (applyInsts insts l).2) := by
  rw [applyInsts_cons, hv]
  rcases h : applyInsts insts l with ⟨insts', l'⟩
  simp [h]

theorem applyTerm_vis {term : Terminator} (nm : String) (l : List String)
    (hv : termVisited term = true) :
    applyTerm term (nm :: l) = (term.SetName nm, l) := by
  unfold applyTerm
  rw [hv]
  simp

theorem applyTerm_skip {term : Terminator} (l : List String)
    (hv : termVisited term = false) :
    applyTerm term l = (term, l) := by
  unfold applyTerm
  rw [hv]
  simp

theorem applyBlocks_cons (b : BasicBlock) (bs : List BasicBlock)
    (nm : String) (l : List String) :
    applyBlocks (b :: bs) (nm :: l)
      = ({ b with
            LocalName := nm,
            Insts := (applyInsts b.Insts l).1,
            Term := (applyTerm b.Term (applyInsts b.Insts l).2).1 }
          :: (applyBlocks bs
            (applyTerm b.Term (applyInsts b.Insts l).2).2).1,
         (applyBlocks bs (applyTerm b.Term (applyInsts b.Insts l).2).2).2) := by
  show (match applyInsts b.Insts l with
    | (insts', l1) =>
      match applyTerm b.Term l1 with
      | (term', l2) =>
        match applyBlocks bs l2 with
        | (bs', l3) =>
          ({ b with LocalName := nm, Insts := insts', Term := term' } :: bs',
            l3)) = _
  rcases h1 : applyInsts b.Insts l with ⟨insts', l1⟩
  rcases h2 : applyTerm b.Term l1 with ⟨term', l2⟩
  rcases h3 : applyBlocks bs l2 with ⟨bs', l3⟩
  simp [h1, h2, h3]

-- === [ Writing the original names back is the identity ] ===

theorem applyParams_self_app :
    ∀ (ps : List Param) (rest : List String),
      applyParams ps (ps.map Param.LocalName ++ rest) = (ps, rest) := by
  intro ps
  induction ps with
  | nil => intro rest; rfl
  | cons p ps ih =>
    intro rest
    rw [List.map_cons, List.cons_append, applyParams_cons, ih]

theorem applyInsts_self_app :
    ∀ (insts : List Inst) (rest : List String),
      applyInsts insts (instGots insts ++ rest) = (insts, rest) := by
  intro insts
  induction insts with
  | nil => intro rest; rfl
  | cons inst insts ih =>
    intro rest
    by_cases hv : instVisited inst
    · have hg : instGots (inst :: insts) = inst.Name :: instGots insts := by
        simp [instGots, List.filter_cons, hv]
      rw [hg, List.cons_append, applyInsts_cons_vis insts inst.Name _ hv, ih,
        instSetName_self]
    · rw [Bool.not_eq_true] at hv
      have hg : instGots (inst :: insts) = instGots insts := by
        simp [instGots, List.filter_cons, hv]
      rw [hg, applyInsts_cons_skip insts _ hv, ih]

theorem applyTerm_self_app (term : Terminator) (rest : List String) :
    applyTerm term (termGots term ++ rest) = (term, rest) := by
  by_cases hv : termVisited term
  · have hg : termGots term = [term.Name] := by simp [termGots, hv]
    rw [hg, List.cons_append, List.nil_append, applyTerm_vis term.Name _ hv,
      termSetName_self]
  · rw [Bool.not_eq_true] at hv
    have hg : termGots term = [] := by simp [termGots, hv]
    rw [hg, List.nil_append, applyTerm_skip _ hv]

theorem applyBlocks_self_app :
    ∀ (bs : List BasicBlock) (rest : List String),
      applyBlocks bs (blocksGots bs ++ rest) = (bs, rest) := by
  intro bs
  induction bs with
  | nil => intro rest; rfl
  | cons b bs ih =>
    intro rest
    have hsplit : blocksGots (b :: bs) ++ rest
        = b.LocalName
          :: (instGots b.Insts ++ (termGots b.Term ++ (blocksGots bs ++ rest))) := by
      simp [blocksGots, blockGots, List.append_assoc]
    rw [hsplit, applyBlocks_cons, applyInsts_self_app, applyTerm_self_app, ih]

-- === [ Splitting an exactly-consumed prefix off the name list ] ===

theorem applyParams_append :
    ∀ (ps : List Param) (l1 l2 : List String),
      l1.length = ps.length →
      applyParams ps (l1 ++ l2) = ((applyParams ps l1).1, l2) := by
  intro ps
  induction ps with
  | nil =>
    intro l1 l2 h
    have : l1 = [] := List.length_eq_zero.mp h
    subst this
    rfl
  | cons p ps ih =>
    intro l1 l2 h
    cases l1 with
    | nil => simp at h
    | cons nm l1' =>
      rw [List.cons_append, applyParams_cons, applyParams_cons,
        ih l1' l2 (by simpa using h)]

theorem applyInsts_append :
    ∀ (insts : List Inst) (l1 l2 : List String),
      l1.length = (instGots insts).length →
      applyInsts insts (l1 ++ l2) = ((applyInsts insts l1).1, l2) := by
  intro insts
  induction insts with
  | nil =>
    intro l1 l2 h
    have : l1 = [] := List.length_eq_zero.mp h
    subst this
    rfl
  | cons inst insts ih =>
    intro l1 l2 h
    by_cases hv : instVisited inst
    · have hg : instGots (inst :: insts) = inst.Name :: instGots insts := by
        simp [instGots, List.filter_cons, hv]
      rw [hg] at h
      cases l1 with
      | nil => simp at h
      | cons nm l1' =>
        rw [List.cons_append, applyInsts_cons_vis insts nm _ hv,
          applyInsts_cons_vis insts nm _ hv, ih l1' l2 (by simpa using h)]
    · rw [Bool.not_eq_true] at hv
      have hg : instGots (inst :: insts) = instGots insts := by
        simp [instGots, List.filter_cons, hv]
      rw [hg] at h
      rw [applyInsts_cons_skip insts _ hv, applyInsts_cons_skip insts _ hv,
        ih l1 l2 h]

theorem applyTerm_append (term : Terminator) (l1 l2 : List String)
    (h : l1.length = (termGots term).length) :
    applyTerm term (l1 ++ l2) = ((applyTerm term l1).1, l2) := by
  by_cases hv : termVisited term
  · have hg : termGots term = [term.Name] := by simp [termGots, hv]
    rw [hg] at h
    cases l1 with
    | nil => simp at h
    | cons nm l1' =>
      have : l1' = [] := by
        simpa [List.length_eq_zero] using h
      subst this
      rw [List.cons_append, List.nil_append, applyTerm_vis nm _ hv,
        applyTerm_vis nm _ hv]
  · rw [Bool.not_eq_true] at hv
    have hg : termGots term = [] := by simp [termGots, hv]
    rw [hg] at h
    have : l1 = [] := List.length_eq_zero.mp h
    subst this
    rw [List.nil_append, applyTerm_skip _ hv, applyTerm_skip _ hv]

-- === [ The four outcomes of one setName step ] ===

theorem setName_unnamed {got : String} (fname : String) (st : NumState)
    (h : isUnnamed got = true) :
    setName fname st got
      = .ok (toString st.id,
        ⟨st.id + 1, st.names ++ [toString st.id]⟩) := by
  unfold setName
  rw [h]
  simp

theorem setName_numOk {got : String} (fname : String) (st : NumState)
    (h1 : isUnnamed got = false) (h2 : isLocalID got = true)
    (h3 : got = toString st.id) :
    setName fname st got = .ok (got, ⟨st.id + 1, st.names⟩) := by
  unfold setName
  rw [h1, h2]
  have hb : (toString st.id != got) = false := by simp [h3]
  simp [hb]

theorem setName_mismatch {got : String} (fname : String) (st : NumState)
    (h1 : isUnnamed got = false) (h2 : isLocalID got = true)
    (h3 : got ≠ toString st.id) :
    setName fname st got
      = .error (localIDError fname (toString st.id) got) := by
  unfold setName
  rw [h1, h2]
  have hb : (toString st.id != got) = true := by
    simp
    exact fun hcon => h3 hcon.symm
  simp [hb]

theorem setName_named {got : String} (fname : String) (st : NumState)
    (h1 : isUnnamed got = false) (h2 : isLocalID got = false) :
    setName fname st got = .ok (got, st) := by
  unfold setName
  rw [h1, h2]
  simp

-- === [ One-step equations of the assign loops ] ===

theorem assignParams_cons (fname : String) (st : NumState) (p : Param)
    (ps : List Param) :
    assignParams fname st (p :: ps)
      = match setName fname st p.LocalName with
        | .error e => (p :: ps, st, some e)
        | .ok (nm, st') =>
          match assignParams fname st' ps with
          | (ps', st'', err) =>
            ({ p with LocalName := nm } :: ps', st'', err) := rfl

theorem assignParams_cons_err {fname : String} {st : NumState} {p : Param}
    (ps : List Param) {e : String}
    (hs : setName fname st p.LocalName = .error e) :
    assignParams fname st (p :: ps) = (p :: ps, st, some e) := by
  rw [assignParams_cons, hs]

theorem assignParams_cons_ok {fname : String} {st : NumState} {p : Param}
    (ps : List Param) {nm : String} {st' : NumState}
    (hs : setName fname st p.LocalName = .ok (nm, st')) :
    assignParams fname st (p :: ps)
      = ({ p with LocalName := nm } :: (assignParams fname st' ps).1,
         (assignParams fname st' ps).2.1,
         (assignParams fname st' ps).2.2) := by
  rw [assignParams_cons, hs]

theorem assignInsts_cons (fname : String) (st : NumState) (inst : Inst)
    (insts : List Inst) :
    assignInsts fname st (inst :: insts)
      = if !inst.isNamed then
          match assignInsts fname st insts with
          | (insts', st', err) => (inst :: insts', st', err)
        else if inst.isVoidValue then
          match assignInsts fname st insts with
          | (insts', st', err) => (inst :: insts', st', err)
        else
          match setName fname st inst.Name with
          | .error e => (inst :: insts, st, some e)
          | .ok (nm, st') =>
            match assignInsts fname st' insts with
            | (insts', st'', err) =>
              (inst.SetName nm :: insts', st'', err) := rfl

theorem assignInsts_cons_skip {fname : String} {st : NumState} {inst : Inst}
    (insts : List Inst) (hv : instVisited inst = false) :
    assignInsts fname st (inst :: insts)
      = (inst :: (assignInsts fname st insts).1,
         (assignInsts fname st insts).2.1,
         (assignInsts fname st insts).2.2) := by
  have hv' : inst.isNamed = true → inst.isVoidValue = true := by
    simpa [instVisited] using hv
  rcases h : assignInsts fname st insts with ⟨insts', st', err⟩
  cases hn : inst.isNamed with
  | false => rw [assignInsts_cons, hn, h]; simp [h]
  | true => rw [assignInsts_cons, hn, hv' hn, h]; simp [h]

theorem assignInsts_cons_vis_err {fname : String} {st : NumState}
    {inst : Inst} (insts : List Inst) {e : String}
    (hv : instVisited inst = true)
    (hs : setName fname st inst.Name = .error e) :
    assignInsts fname st (inst :: insts) = (inst :: insts, st, some e) := by
  have hv' : inst.isNamed = true ∧ inst.isVoidValue = false := by
    simpa [instVisited] using hv
  rw [assignInsts_cons, hv'.1, hv'.2, hs]
  simp

theorem assignInsts_cons_vis_ok {fname : String} {st : NumState}
    {inst : Inst} (insts : List Inst) {nm : String} {st' : NumState}
    (hv : instVisited inst = true)
    (hs : setName fname st inst.Name = .ok (nm, st')) :
    assignInsts fname st (inst :: insts)
      = (inst.SetName nm :: (assignInsts fname st' insts).1,
         (assignInsts fname st' insts).2.1,
         (assignInsts fname st' insts).2.2) := by
  have hv' : inst.isNamed = true ∧ inst.isVoidValue = false := by
    simpa [instVisited] using hv
  rw [assignInsts_cons, hv'.1, hv'.2, hs]
  rcases h : assignInsts fname st' insts with ⟨insts', st'', err⟩
  simp [h]

theorem assignBlocks_cons (fname : String) (st : NumState) (b : BasicBlock)
    (bs : List BasicBlock) :
    assignBlocks fname st (b :: bs)
      = match setName fname st b.LocalName with
        | .error e => (b :: bs, st, some e)
        | .ok (nm, st1) =>
          match assignInsts fname st1 b.Insts with
          | (insts', st2, some e) =>
            ({ b with LocalName := nm, Insts := insts' } :: bs, st2, some e)
          | (insts', st2, none) =>
            match assignTerm fname st2 b.Term with
            | (term', st3, some e) =>
              ({ b with LocalName := nm, Insts := insts', Term := term' }
                :: bs, st3, some e)
            | (term', st3, none) =>
              match assignBlocks fname st3 bs with
              | (bs', st4, err) =>
                ({ b with LocalName := nm, Insts := insts', Term := term' }
                  :: bs', st4, err) := rfl

-- === [ The run of each loop is the counter fold over its bare names ] ===

theorem assignParams_run (fname : String) :
    ∀ (ps : List Param) (st : NumState) (L : List String) (n : Nat)
      (err : Option String),
      counterRun fname st.id (ps.map Param.LocalName) = (L, n, err) →
      ∃ ns, assignParams fname st ps = ((applyParams ps L).1, ⟨n, ns⟩, err) := by
  intro ps
  induction ps with
  | nil =>
    intro st L n err h
    cases h
    exact ⟨st.names, rfl⟩
  | cons p ps ih =>
    intro st L n err h
    rw [List.map_cons] at h
    by_cases h1 : isUnnamed p.LocalName = true
    · rw [counterRun_cons_unnamed fname st.id _ h1] at h
      rcases hcr : counterRun fname (st.id + 1) (ps.map Param.LocalName)
        with ⟨l2, n2, e2⟩
      rw [hcr] at h
      cases h
      obtain ⟨ns, iheq⟩ :=
        ih ⟨st.id + 1, st.names ++ [toString st.id]⟩ l2 n2 e2 hcr
      refine ⟨ns, ?_⟩
      rw [assignParams_cons_ok ps (setName_unnamed fname st h1), iheq,
        applyParams_cons]
    · rw [Bool.not_eq_true] at h1
      by_cases h2 : isLocalID p.LocalName = true
      · by_cases h3 : p.LocalName = toString st.id
        · rw [counterRun_cons_numOk fname st.id _ h1 h2 h3] at h
          rcases hcr : counterRun fname (st.id + 1) (ps.map Param.LocalName)
            with ⟨l2, n2, e2⟩
          rw [hcr] at h
          cases h
          obtain ⟨ns, iheq⟩ := ih ⟨st.id + 1, st.names⟩ l2 n2 e2 hcr
          refine ⟨ns, ?_⟩
          rw [assignParams_cons_ok ps (setName_numOk fname st h1 h2 h3), iheq,
            applyParams_cons]
        · rw [counterRun_cons_mismatch fname st.id _ h1 h2 h3] at h
          cases h
          refine ⟨st.names, ?_⟩
          rw [assignParams_cons_err ps (setName_mismatch fname st h1 h2 h3),
            applyParams_cons]
          have := applyParams_self_app ps []
          rw [List.append_nil] at this
          rw [this]
      · rw [Bool.not_eq_true] at h2
        rw [counterRun_cons_named fname st.id _ h1 h2] at h
        rcases hcr : counterRun fname st.id (ps.map Param.LocalName)
          with ⟨l2, n2, e2⟩
        rw [hcr] at h
        cases h
        obtain ⟨ns, iheq⟩ := ih st l2 n2 e2 hcr
        refine ⟨ns, ?_⟩
        rw [assignParams_cons_ok ps (setName_named fname st h1 h2), iheq,
          applyParams_cons]

theorem assignTerm_run (fname : String) (term : Terminator) (st : NumState)
    (L : List String) (n : Nat) (err : Option String)
    (h : counterRun fname st.id (termGots term) = (L, n, err)) :
    ∃ ns, assignTerm fname st term = ((applyTerm term L).1, ⟨n, ns⟩, err) := by
  by_cases hv : termVisited term = true
  · have hv' : term.isNamed = true ∧ term.isVoidValue = false := by
      simpa [termVisited] using hv
    have hg : termGots term = [term.Name] := by simp [termGots, hv]
    rw [hg] at h
    by_cases h1 : isUnnamed term.Name = true
    · rw [counterRun_cons_unnamed fname st.id _ h1] at h
      cases h
      refine ⟨st.names ++ [toString st.id], ?_⟩
      unfold assignTerm
      rw [hv'.1, hv'.2, setName_unnamed fname st h1,
        applyTerm_vis (toString st.id) _ hv]
      simp
      exact ⟨rfl, rfl⟩
    · rw [Bool.not_eq_true] at h1
      by_cases h2 : isLocalID term.Name = true
      · by_cases h3 : term.Name = toString st.id
        · rw [counterRun_cons_numOk fname st.id _ h1 h2 h3] at h
          cases h
          refine ⟨st.names, ?_⟩
          unfold assignTerm
          rw [hv'.1, hv'.2, setName_numOk fname st h1 h2 h3,
            applyTerm_vis term.Name _ hv]
          simp
          exact ⟨rfl, rfl⟩
        · rw [counterRun_cons_mismatch fname st.id _ h1 h2 h3] at h
          cases h
          refine ⟨st.names, ?_⟩
          unfold assignTerm
          rw [hv'.1, hv'.2, setName_mismatch fname st h1 h2 h3,
            applyTerm_vis term.Name _ hv, termSetName_self]
          simp
      · rw [Bool.not_eq_true] at h2
        rw [counterRun_cons_named fname st.id _ h1 h2] at h
        cases h
        refine ⟨st.names, ?_⟩
        unfold assignTerm
        rw [hv'.1, hv'.2, setName_named fname st h1 h2,
          applyTerm_vis term.Name _ hv, termSetName_self]
        simp
        exact ⟨termSetName_self term, rfl, rfl⟩
  · rw [Bool.not_eq_true] at hv
    have hv' : term.isNamed = true → term.isVoidValue = true := by
      simpa [termVisited] using hv
    have hg : termGots term = [] := by simp [termGots, hv]
    rw [hg] at h
    cases h
    refine ⟨st.names, ?_⟩
    rw [applyTerm_skip _ hv]
    unfold assignTerm
    cases hn : term.isNamed with
    | false => simp
    | true => rw [hv' hn]; simp

theorem counterRun_nil (fname : String) (id : Nat) :
    counterRun fname id [] = ([], id, none) := rfl

theorem assignInsts_run (fname : String) :
    ∀ (insts : List Inst) (st : NumState) (L : List String) (n : Nat)
      (err : Option String),
      counterRun fname st.id (instGots insts) = (L, n, err) →
      ∃ ns, assignInsts fname st insts
        = ((applyInsts insts L).1, ⟨n, ns⟩, err) := by
  intro insts
  induction insts with
  | nil =>
    intro st L n err h
    cases h
    exact ⟨st.names, rfl⟩
  | cons inst insts ih =>
    intro st L n err h
    by_cases hv : instVisited inst = true
    · have hg : instGots (inst :: insts) = inst.Name :: instGots insts := by
        simp [instGots, List.filter_cons, hv]
      rw [hg] at h
      by_cases h1 : isUnnamed inst.Name = true
      · rw [counterRun_cons_unnamed fname st.id _ h1] at h
        rcases hcr : counterRun fname (st.id + 1) (instGots insts)
          with ⟨l2, n2, e2⟩
        rw [hcr] at h
        cases h
        obtain ⟨ns, iheq⟩ :=
          ih ⟨st.id + 1, st.names ++ [toString st.id]⟩ l2 n2 e2 hcr
        refine ⟨ns, ?_⟩
        rw [assignInsts_cons_vis_ok insts hv (setName_unnamed fname st h1),
          iheq, applyInsts_cons_vis insts (toString st.id) _ hv]
      · rw [Bool.not_eq_true] at h1
        by_cases h2 : isLocalID inst.Name = true
        · by_cases h3 : inst.Name = toString st.id
          · rw [counterRun_cons_numOk fname st.id _ h1 h2 h3] at h
            rcases hcr : counterRun fname (st.id + 1) (instGots insts)
              with ⟨l2, n2, e2⟩
            rw [hcr] at h
            cases h
            obtain ⟨ns, iheq⟩ := ih ⟨st.id + 1, st.names⟩ l2 n2 e2 hcr
            refine ⟨ns, ?_⟩
            rw [assignInsts_cons_vis_ok insts hv
              (setName_numOk fname st h1 h2 h3), iheq,
              applyInsts_cons_vis insts inst.Name _ hv]
          · rw [counterRun_cons_mismatch fname st.id _ h1 h2 h3] at h
            cases h
            refine ⟨st.names, ?_⟩
            rw [assignInsts_cons_vis_err insts hv
              (setName_mismatch fname st h1 h2 h3),
              applyInsts_cons_vis insts inst.Name _ hv]
            have hself := applyInsts_self_app insts []
            rw [List.append_nil] at hself
            rw [hself, instSetName_self]
        · rw [Bool.not_eq_true] at h2
          rw [counterRun_cons_named fname st.id _ h1 h2] at h
          rcases hcr : counterRun fname st.id (instGots insts)
            with ⟨l2, n2, e2⟩
          rw [hcr] at h
          cases h
          obtain ⟨ns, iheq⟩ := ih st l2 n2 e2 hcr
          refine ⟨ns, ?_⟩
          rw [assignInsts_cons_vis_ok insts hv (setName_named fname st h1 h2),
            iheq, applyInsts_cons_vis insts inst.Name _ hv]
    · rw [Bool.not_eq_true] at hv
      have hg : instGots (inst :: insts) = instGots insts := by
        simp [instGots, List.filter_cons, hv]
      rw [hg] at h
      obtain ⟨ns, iheq⟩ := ih st L n err h
      refine ⟨ns, ?_⟩
      rw [assignInsts_cons_skip insts hv, iheq,
        applyInsts_cons_skip insts _ hv]

theorem assignBlocks_cons_ok {fname : String} {st : NumState}
    {b : BasicBlock} (bs : List BasicBlock) {nm : String} {st1 : NumState}
    (hs : setName fname st b.LocalName = .ok (nm, st1)) :
    assignBlocks fname st (b :: bs)
      = match assignInsts fname st1 b.Insts with
        | (insts', st2, some e) =>
          ({ b with LocalName := nm, Insts := insts' } :: bs, st2, some e)
        | (insts', st2, none) =>
          match assignTerm fname st2 b.Term with
          | (term', st3, some e) =>
            ({ b with LocalName := nm, Insts := insts', Term := term' }
              :: bs, st3, some e)
          | (term', st3, none) =>
            match assignBlocks fname st3 bs with
            | (bs', st4, err) =>
              ({ b with LocalName := nm, Insts := insts', Term := term' }
                :: bs', st4, err) := by
  rw [assignBlocks_cons, hs]

theorem assignBlocks_cons_err {fname : String} {st : NumState}
    {b : BasicBlock} (bs : List BasicBlock) {e : String}
    (hs : setName fname st b.LocalName = .error e) :
    assignBlocks fname st (b :: bs) = (b :: bs, st, some e) := by
  rw [assignBlocks_cons, hs]

theorem assignBlocks_cons_run (fname : String) (b : BasicBlock)
    (bs : List BasicBlock) (st st1 : NumState) (nm : String)
    (tail : List String) (n : Nat) (err : Option String)
    (hset : setName fname st b.LocalName = .ok (nm, st1))
    (hihs : ∀ (st' : NumState) (L' : List String) (n' : Nat)
      (e' : Option String),
      counterRun fname st'.id (blocksGots bs) = (L', n', e') →
      ∃ ns, assignBlocks fname st' bs
        = ((applyBlocks bs L').1, ⟨n', ns⟩, e'))
    (htail : counterRun fname st1.id
      (instGots b.Insts ++ (termGots b.Term ++ blocksGots bs))
      = (tail, n, err)) :
    ∃ ns, assignBlocks fname st (b :: bs)
      = ((applyBlocks (b :: bs) (nm :: tail)).1, ⟨n, ns⟩, err) := by
  rcases hci : counterRun fname st1.id (instGots b.Insts) with ⟨Li, ni, ei⟩
  have hleni : Li.length = (instGots b.Insts).length := by
    have hl := counterRun_length fname (instGots b.Insts) st1.id
    rw [hci] at hl
    simpa using hl
  cases ei with
  | some e =>
    obtain ⟨ns2, hinsts⟩ := assignInsts_run fname b.Insts st1 Li ni (some e) hci
    rw [counterRun_append_err fname _ _ st1.id Li ni e hci] at htail
    cases htail
    refine ⟨ns2, ?_⟩
    have hbsself := applyBlocks_self_app bs []
    rw [List.append_nil] at hbsself
    simp only [assignBlocks_cons_ok bs hset, hinsts, applyBlocks_cons,
      applyInsts_append b.Insts Li _ hleni, applyTerm_self_app, hbsself]
  | none =>
    rw [counterRun_append_ok fname _ _ st1.id Li ni hci] at htail
    rcases hct : counterRun fname ni (termGots b.Term) with ⟨Lt, nt, et⟩
    have hlent : Lt.length = (termGots b.Term).length := by
      have hl := counterRun_length fname (termGots b.Term) ni
      rw [hct] at hl
      simpa using hl
    obtain ⟨ns2, hinsts⟩ := assignInsts_run fname b.Insts st1 Li ni none hci
    cases et with
    | some e =>
      obtain ⟨ns3, hterm⟩ :=
        assignTerm_run fname b.Term ⟨ni, ns2⟩ Lt nt (some e) hct
      rw [counterRun_append_err fname _ _ ni Lt nt e hct] at htail
      cases htail
      refine ⟨ns3, ?_⟩
      have hbsself := applyBlocks_self_app bs []
      rw [List.append_nil] at hbsself
      simp only [assignBlocks_cons_ok bs hset, hinsts, hterm,
        applyBlocks_cons, applyInsts_append b.Insts Li _ hleni,
        applyTerm_append b.Term Lt _ hlent, hbsself]
    | none =>
      obtain ⟨ns3, hterm⟩ := assignTerm_run fname b.Term ⟨ni, ns2⟩ Lt nt none hct
      rw [counterRun_append_ok fname _ _ ni Lt nt hct] at htail
      rcases hcb : counterRun fname nt (blocksGots bs) with ⟨Lb, nb, eb⟩
      obtain ⟨ns4, hbs⟩ := hihs ⟨nt, ns3⟩ Lb nb eb hcb
      rw [hcb] at htail
      cases htail
      refine ⟨ns4, ?_⟩
      simp only [assignBlocks_cons_ok bs hset, hinsts, hterm, hbs,
        applyBlocks_cons, applyInsts_append b.Insts Li _ hleni,
        applyTerm_append b.Term Lt _ hlent]

theorem assignBlocks_run (fname : String) :
    ∀ (bs : List BasicBlock) (st : NumState) (L : List String) (n : Nat)
      (err : Option String),
      counterRun fname st.id (blocksGots bs) = (L, n, err) →
      ∃ ns, assignBlocks fname st bs
        = ((applyBlocks bs L).1, ⟨n, ns⟩, err) := by
  intro bs
  induction bs with
  | nil =>
    intro st L n err h
    cases h
    exact ⟨st.names, rfl⟩
  | cons b bs ih =>
    intro st L n err h
    have hsplit : blocksGots (b :: bs)
        = b.LocalName
          :: (instGots b.Insts ++ (termGots b.Term ++ blocksGots bs)) := by
      simp [blocksGots, blockGots, List.append_assoc]
    rw [hsplit] at h
    by_cases h1 : isUnnamed b.LocalName = true
    · rw [counterRun_cons_unnamed fname st.id _ h1] at h
      rcases hcr : counterRun fname (st.id + 1)
        (instGots b.Insts ++ (termGots b.Term ++ blocksGots bs))
        with ⟨tail, n2, e2⟩
      rw [hcr] at h
      cases h
      exact assignBlocks_cons_run fname b bs st
        ⟨st.id + 1, st.names ++ [toString st.id]⟩ (toString st.id) tail n2 e2
        (setName_unnamed fname st h1) ih hcr
    · rw [Bool.not_eq_true] at h1
      by_cases h2 : isLocalID b.LocalName = true
      · by_cases h3 : b.LocalName = toString st.id
        · rw [counterRun_cons_numOk fname st.id _ h1 h2 h3] at h
          rcases hcr : counterRun fname (st.id + 1)
            (instGots b.Insts ++ (termGots b.Term ++ blocksGots bs))
            with ⟨tail, n2, e2⟩
          rw [hcr] at h
          cases h
          exact assignBlocks_cons_run fname b bs st ⟨st.id + 1, st.names⟩
            b.LocalName tail n2 e2 (setName_numOk fname st h1 h2 h3) ih hcr
        · rw [counterRun_cons_mismatch fname st.id _ h1 h2 h3] at h
          cases h
          refine ⟨st.names, ?_⟩
          rw [assignBlocks_cons_err bs (setName_mismatch fname st h1 h2 h3)]
          have hbsself := applyBlocks_self_app bs []
          rw [List.append_nil] at hbsself
          simp only [applyBlocks_cons, applyInsts_self_app,
            applyTerm_self_app, hbsself]
      · rw [Bool.not_eq_true] at h2
        rw [counterRun_cons_named fname st.id _ h1 h2] at h
        rcases hcr : counterRun fname st.id
          (instGots b.Insts ++ (termGots b.Term ++ blocksGots bs))
          with ⟨tail, n2, e2⟩
        rw [hcr] at h
        cases h
        exact assignBlocks_cons_run fname b bs st st b.LocalName tail n2 e2
          (setName_named fname st h1 h2) ih hcr

theorem applyNames_eq (f : Function) (l : List String) :
    applyNames f l
      = { f with
          Params := (applyParams f.Params l).1,
          Blocks := (applyBlocks f.Blocks (applyParams f.Params l).2).1 } := by
  show (match applyParams f.Params l with
    | (ps, l1) =>
      match applyBlocks f.Blocks l1 with
      | (bs, _) => { f with Params := ps, Blocks := bs }) = _
  rcases h1 : applyParams f.Params l with ⟨ps, l1⟩
  rcases h2 : applyBlocks f.Blocks l1 with ⟨bs, l2⟩
  simp [h1, h2]

theorem assignIDs_eq (f : Function) (hne : f.Blocks ≠ []) :
    f.AssignIDs
      = match assignParams f.GlobalName ⟨0, []⟩ f.Params with
        | (ps, _, some e) => ({ f with Params := ps }, some e)
        | (ps, st1, none) =>
          match assignBlocks f.GlobalName st1 f.Blocks with
          | (bs, _, err) => ({ f with Params := ps, Blocks := bs }, err) := by
  have he : f.Blocks.isEmpty = false := by
    cases hb : f.Blocks with
    | nil => exact absurd hb hne
    | cons x xs => rfl
  unfold Function.AssignIDs
  rw [he]
  simp

theorem assignIDs_run (f : Function) (L : List String) (n : Nat)
    (err : Option String) (hne : f.Blocks ≠ [])
    (h : counterRun f.GlobalName 0 (visitNames f) = (L, n, err)) :
    f.AssignIDs = (applyNames f L, err) := by
  rw [visitNames] at h
  rcases hcp : counterRun f.GlobalName 0 (f.Params.map Param.LocalName)
    with ⟨Lp, np, ep⟩
  have hlenp : Lp.length = f.Params.length := by
    have hl := counterRun_length f.GlobalName (f.Params.map Param.LocalName) 0
    rw [hcp] at hl
    simpa using hl
  cases ep with
  | some e =>
    obtain ⟨ns, hps⟩ := assignParams_run f.GlobalName f.Params ⟨0, []⟩
      Lp np (some e) hcp
    rw [counterRun_append_err f.GlobalName _ _ 0 Lp np e hcp] at h
    cases h
    have hbsself := applyBlocks_self_app f.Blocks []
    rw [List.append_nil] at hbsself
    simp only [assignIDs_eq f hne, hps, applyNames_eq,
      applyParams_append f.Params Lp _ hlenp, hbsself]
  | none =>
    obtain ⟨ns, hps⟩ := assignParams_run f.GlobalName f.Params ⟨0, []⟩
      Lp np none hcp
    rw [counterRun_append_ok f.GlobalName _ _ 0 Lp np hcp] at h
    rcases hcb : counterRun f.GlobalName np (blocksGots f.Blocks)
      with ⟨Lb, nb, eb⟩
    obtain ⟨ns2, hbs⟩ := assignBlocks_run f.GlobalName f.Blocks ⟨np, ns⟩
      Lb nb eb hcb
    rw [hcb] at h
    cases h
    simp only [assignIDs_eq f hne, hps, hbs, applyNames_eq,
      applyParams_append f.Params Lp _ hlenp]

theorem counterRun_error_split (fname : String) :
    ∀ (gots : List String) (id : Nat) (L : List String) (n : Nat) (e : String),
      counterRun fname id gots = (L, n, some e) →
      ∃ (k : Nat) (pre : List String) (got : String),
        counterRun fname id (gots.take k) = (pre, n, none) ∧
        gots.get? k = some got ∧
        isLocalID got = true ∧
        got ≠ toString n ∧
        e = localIDError fname (toString n) got ∧
        L = pre ++ gots.drop k := by
  intro gots
  induction gots with
  | nil => intro id L n e h; cases h
  | cons got rest ih =>
    intro id L n e h
    by_cases h1 : isUnnamed got = true
    · rw [counterRun_cons_unnamed fname id rest h1] at h
      rcases hcr : counterRun fname (id + 1) rest with ⟨l2, n2, e2⟩
      rw [hcr] at h
      cases h
      obtain ⟨k, pre, got', hpre, hget, hlid, hneq, herr, hL⟩ :=
        ih (id + 1) l2 n2 e hcr
      refine ⟨k + 1, toString id :: pre, got', ?_, ?_, hlid, hneq, herr, ?_⟩
      · rw [List.take_succ_cons, counterRun_cons_unnamed fname id _ h1, hpre]
      · simpa using hget
      · rw [List.drop_succ_cons, hL]
        simp
    · rw [Bool.not_eq_true] at h1
      by_cases h2 : isLocalID got = true
      · by_cases h3 : got = toString id
        · rw [counterRun_cons_numOk fname id rest h1 h2 h3] at h
          rcases hcr : counterRun fname (id + 1) rest with ⟨l2, n2, e2⟩
          rw [hcr] at h
          cases h
          obtain ⟨k, pre, got', hpre, hget, hlid, hneq, herr, hL⟩ :=
            ih (id + 1) l2 n2 e hcr
          refine ⟨k + 1, got :: pre, got', ?_, ?_, hlid, hneq, herr, ?_⟩
          · rw [List.take_succ_cons,
              counterRun_cons_numOk fname id _ h1 h2 h3, hpre]
          · simpa using hget
          · rw [List.drop_succ_cons, hL]
            simp
        · rw [counterRun_cons_mismatch fname id rest h1 h2 h3] at h
          cases h
          refine ⟨0, [], got, rfl, rfl, h2, h3, rfl, ?_⟩
          simp
      · rw [Bool.not_eq_true] at h2
        rw [counterRun_cons_named fname id rest h1 h2] at h
        rcases hcr : counterRun fname id rest with ⟨l2, n2, e2⟩
        rw [hcr] at h
        cases h
        obtain ⟨k, pre, got', hpre, hget, hlid, hneq, herr, hL⟩ :=
          ih id l2 n2 e hcr
        refine ⟨k + 1, got :: pre, got', ?_, ?_, hlid, hneq, herr, ?_⟩
        · rw [List.take_succ_cons, counterRun_cons_named fname id _ h1 h2,
            hpre]
        · simpa using hget
        · rw [List.drop_succ_cons, hL]
          simp

-- === [ C1 ] ===

/-- Claim C1: for every function with a non-empty basic-block list, the
identifier-numbering pass visits entities in exactly this order —
parameters in declaration order, then for each basic block in order: the
block itself, each non-terminator instruction that produces a named
non-void result, and the non-void terminator — driven by a single counter
that starts at 0 and increments by one for each visited entity that is
unnamed or carries a numeric name: the pass equals writing the spec-side
counter fold `counterRun` over the visit-ordered bare names `visitNames`
back onto the function.  In particular, on a function with parameters
`[unnamed, "x"]` and one block `[unnamed alloca, unnamed load, ret-void]`
it assigns the first parameter `"0"`, leaves `"x"` unchanged, names the
block `"1"`, the alloca `"2"`, the load `"3"`, and skips the terminator
without consuming a counter slot. -/
theorem assignIDs_traversal_counter :
    (∀ f : Function, f.Blocks ≠ [] →
      f.AssignIDs
        = (applyNames f (counterRun f.GlobalName 0 (visitNames f)).1,
           (counterRun f.GlobalName 0 (visitNames f)).2.2)) ∧
    exF.AssignIDs = (exFNumbered, none) := by
  constructor
  · intro f hne
    rcases hcr : counterRun f.GlobalName 0 (visitNames f) with ⟨L, n, e⟩
    exact assignIDs_run f L n e hne hcr
  · rfl

/-- Witness for C1 at the §8 numbering-determinism function. -/
theorem assignIDs_traversal_counter_witness :
    exF.AssignIDs
      = (applyNames exF (counterRun exF.GlobalName 0 (visitNames exF)).1,
         (counterRun exF.GlobalName 0 (visitNames exF)).2.2) :=
  assignIDs_traversal_counter.1 exF (by simp [exF])

-- === [ C2 ] ===

/-- Claim C2: for every entity visited by the numbering pass whose bare
name is already a bare decimal integer, the pass continues (incrementing
the counter afterward) if and only if that name equals the current counter
value rendered as a decimal string; on inequality the pass returns an
identifier-mismatch error that reports the offending function's name, the
expected value, and the actual value.  The whole-pass conjunct is §8's
validation example: an instruction pre-named `"5"` visited at counter 3
fails with expected `%3`, got `%5`. -/
theorem setName_localID_policy :
    (∀ (fname : String) (st : NumState) (got : String),
      isLocalID got = true →
      (got = toString st.id →
        setName fname st got = .ok (got, ⟨st.id + 1, st.names⟩)) ∧
      (got ≠ toString st.id →
        setName fname st got
          = .error ("invalid local ID in function \"" ++ Global fname
            ++ "\", expected " ++ Local (toString st.id) ++ ", got "
            ++ Local got))) ∧
    exMismatchF.AssignIDs
      = (exMismatchPartial,
        some "invalid local ID in function \"@f\", expected %3, got %5") := by
  constructor
  · intro fname st got h2
    have h1 : isUnnamed got = false := by
      by_cases hg : got = ""
      · subst hg
        simp [isLocalID] at h2
      · simp [isUnnamed, hg]
    constructor
    · intro h3
      exact setName_numOk fname st h1 h2 h3
    · intro h3
      rw [setName_mismatch fname st h1 h2 h3]
      rfl
  · rfl

/-- Witness for C2: a name `"5"` visited while the counter is 3. -/
theorem setName_localID_policy_witness :
    setName "f" ⟨3, []⟩ "5"
      = .error ("invalid local ID in function \"" ++ Global "f"
        ++ "\", expected " ++ Local (toString (3 : Nat)) ++ ", got "
        ++ Local "5") :=
  (setName_localID_policy.1 "f" ⟨3, []⟩ "5" (by decide)).2 (by decide)

-- === [ C3 ] ===

/-- Claim C3: if the numbering pass fails with an identifier-mismatch
error, it aborts at the first mismatch: there is a position `k` in the
visit order such that the prefix before `k` ran through the counter fold
without error and its anonymous entities keep the numeric names just
assigned (no rollback), the entity at `k` is the offending pre-named
numeric entity, and the function the pass leaves behind is exactly the
original with that renamed prefix written back — every entity from the
mismatch on (and every non-visited entity) is untouched. -/
theorem assignIDs_abort_no_rollback :
    ∀ (f f' : Function) (e : String),
      f.AssignIDs = (f', some e) →
      ∃ (k : Nat) (pre : List String) (n : Nat) (got : String),
        counterRun f.GlobalName 0 ((visitNames f).take k) = (pre, n, none) ∧
        (visitNames f).get? k = some got ∧
        isLocalID got = true ∧
        got ≠ toString n ∧
        e = localIDError f.GlobalName (toString n) got ∧
        f' = applyNames f (pre ++ (visitNames f).drop k) := by
  intro f f' e h
  by_cases hne : f.Blocks = []
  · have hid : f.AssignIDs = (f, none) := by
      have he : f.Blocks.isEmpty = true := by simp [hne]
      unfold Function.AssignIDs
      rw [he]
      simp
    rw [hid] at h
    exact absurd h (by simp)
  · rcases hcr : counterRun f.GlobalName 0 (visitNames f) with ⟨L, n0, err⟩
    have hrun := assignIDs_run f L n0 err hne hcr
    rw [hrun] at h
    cases h
    obtain ⟨k, pre, got, hpre, hget, hlid, hneq, herr, hL⟩ :=
      counterRun_error_split f.GlobalName (visitNames f) 0 L n0 e hcr
    exact ⟨k, pre, n0, got, hpre, hget, hlid, hneq, herr, by rw [hL]⟩

/-- Witness for C3 at the §8 numbering-validation function: the aborted
pass leaves the block renamed `"0"`, the first two instructions `"1"` and
`"2"`, and the mismatching `"5"` untouched. -/
theorem assignIDs_abort_no_rollback_witness :
    ∃ (k : Nat) (pre : List String) (n : Nat) (got : String),
      counterRun exMismatchF.GlobalName 0 ((visitNames exMismatchF).take k)
        = (pre, n, none) ∧
      (visitNames exMismatchF).get? k = some got ∧
      isLocalID got = true ∧
      got ≠ toString n ∧
      "invalid local ID in function \"@f\", expected %3, got %5"
        = localIDError exMismatchF.GlobalName (toString n) got ∧
      exMismatchPartial
        = applyNames exMismatchF
          (pre ++ (visitNames exMismatchF).drop k) :=
  assignIDs_abort_no_rollback exMismatchF exMismatchPartial
    "invalid local ID in function \"@f\", expected %3, got %5" rfl

end LlirIR
